import Mathlib

/-!
# Verification of the budget-extractor pipeline

Shallow embedding of `Core/extractor.py` (two-pass extraction and
reconciliation) and `Core/nlp_model.py` (entity-based technical alerts),
together with theorems settling the specification claims.

Numbers are modelled as rationals (`ℚ`): every numeric literal the program
manipulates is a finite decimal string, and both the code model and the
spec-side values are parsed with the same exact decimal semantics, so the
float rounding of the host language applies identically to both sides and
cancels out of every comparison made here.

Strings are modelled through their underlying character lists
(`String.data`); character classes (`\d`, `\s`) are modelled over ASCII,
which covers every character the patterns of the source can accept.
-/

set_option maxRecDepth 8192
set_option linter.unnecessarySeqFocus false
set_option linter.unnecessarySimpa false

namespace Extractor

/-- ASCII decimal digit, the model of the regex class `\d` on the inputs
the program handles. -/
def esDigito (c : Char) : Bool := '0' ≤ c && c ≤ '9'

/-- ASCII whitespace, the model of Python's whitespace set (used by the
regex class `\s` and by `str.strip` / `float`'s surrounding-space rule):
space, tab, newline, carriage return, vertical tab, form feed. -/
def esBlanco (c : Char) : Bool :=
  c = ' ' || c = '\t' || c = '\n' || c = Char.ofNat 13 || c = Char.ofNat 11 ||
    c = Char.ofNat 12

/-- Value of a digit string read in base 10 (most significant first). -/
def valorDigitos (ds : List Char) : ℕ :=
  ds.foldl (fun a c => 10 * a + (c.toNat - 48)) 0

/-- Strip leading and trailing whitespace, as Python's `float` does before
parsing. -/
def recorta (l : List Char) : List Char :=
  ((l.dropWhile esBlanco).reverse.dropWhile esBlanco).reverse

/-- Split off an optional leading sign, as Python's `float` does.
Returns whether the value is negated together with the remainder. -/
def quitaSigno (l : List Char) : Bool × List Char :=
  match l with
  | c :: r => if c = '+' then (false, r) else if c = '-' then (true, r) else (false, l)
  | [] => (false, [])

/-- Exponent tail of a float literal after the `e`/`E`: optional sign and a
nonempty digit string. -/
def colaExponente (l : List Char) : Option ℤ :=
  match
    (match l with
     | '+' :: r => (false, r)
     | '-' :: r => (true, r)
     | r => (false, r)) with
  | (neg, r) =>
    if r ≠ [] ∧ r.all esDigito then
      some (if neg then -(Int.ofNat (valorDigitos r)) else Int.ofNat (valorDigitos r))
    else none

/-- One-pass scan of a leading digit run: accumulates its base-10 value and
its length, and returns them with the unconsumed rest of the input. -/
def digitosYResto : ℕ → ℕ → List Char → ℕ × ℕ × List Char
  | acc, k, [] => (acc, k, [])
  | acc, k, c :: r =>
    if esDigito c then digitosYResto (10 * acc + (c.toNat - 48)) (k + 1) r
    else (acc, k, c :: r)

/-- An integer with an optional minus sign in front. -/
def conSigno (neg : Bool) (n : ℕ) : ℤ :=
  if neg then -(Int.ofNat n) else Int.ofNat n

/-- Value of a parsed mantissa with `neg` its sign, `ipv` the integer part,
and `fpv` the worth of the `fpn` fraction digits, combined with an optional
`e`/`E` exponent read from `resto`; any other trailing text fails the
parse.  The value is the exact rational
`± (ipv·10^fpn + fpv) / 10^fpn`, scaled by the power of ten of the
exponent; it is built with `Rat.divInt` on integers. -/
def valorMant (neg : Bool) (ipv fpv fpn : ℕ) (resto : List Char) : Option ℚ :=
  match resto with
  | [] => some (Rat.divInt (conSigno neg (ipv * 10 ^ fpn + fpv)) (Int.ofNat (10 ^ fpn)))
  | c :: r =>
    if c = 'e' ∨ c = 'E' then
      match colaExponente r with
      | some z =>
        some (if 0 ≤ z then
                Rat.divInt (conSigno neg ((ipv * 10 ^ fpn + fpv) * 10 ^ z.toNat))
                  (Int.ofNat (10 ^ fpn))
              else
                Rat.divInt (conSigno neg (ipv * 10 ^ fpn + fpv))
                  (Int.ofNat (10 ^ fpn * 10 ^ (-z).toNat)))
      | none => none
    else none

/-- Model of Python's `float(s)` on finite decimal literals: surrounding
whitespace, an optional sign, a mantissa `digits [. digits]` or `. digits`
with at least one digit, and an optional `e`/`E` exponent.  The special
forms `inf`/`nan` and digit-group underscores are outside the rational
embedding and are not produced by any input considered in the claims. -/
def pyFloatDe (l0 : List Char) : Option ℚ :=
  match quitaSigno (recorta l0) with
  | (neg, l2) =>
    match digitosYResto 0 0 l2 with
    | (ipv, ipn, r1) =>
      match r1 with
      | '.' :: r2 =>
        (match digitosYResto 0 0 r2 with
         | (fpv, fpn, r3) =>
           if ipn = 0 ∧ fpn = 0 then none else valorMant neg ipv fpv fpn r3)
      | _ => if ipn = 0 then none else valorMant neg ipv 0 0 r1

/-- The string transformation of `_convertir_numero` (extractor.py:42):
`str.replace('.', '')` followed by `str.replace(',', '.')`, i.e. delete
every period, then turn every comma into a period. -/
def transformaPy (s : String) : List Char :=
  (s.data.filter (fun c => ¬ c = '.')).map (fun c => if c = ',' then '.' else c)

/-- Model of `ExtractorPresupuestos._convertir_numero` (extractor.py:39-44):
transform the string, parse it as a float, and return `0.0` on any parse
failure (the `except (ValueError, AttributeError)` branch). -/
def convertir_numero (s : String) : ℚ :=
  match pyFloatDe (transformaPy s) with
  | some q => q
  | none => 0

example : convertir_numero "1.234,56" = mkRat 123456 100 := by decide
example : convertir_numero "100,00" = 100 := by decide
example : convertir_numero "invalido" = 0 := by decide
example : convertir_numero "1.5" = 15 := by decide
example : convertir_numero "100.00" = 10000 := by decide
example : convertir_numero "-2,5" = mkRat (-5) 2 := by decide
example : convertir_numero "1e2" = 100 := by decide
example : convertir_numero "1e-2" = mkRat 1 100 := by decide
example : convertir_numero " 7,5 " = mkRat 15 2 := by decide
example : convertir_numero "" = 0 := by decide
example : convertir_numero "None" = 0 := by decide

/-! ## The two compiled patterns of `Configuracion.patrones`

The two regexes (extractor.py:26-31) are embedded as sequences of `Pieza`s
run by a backtracking matcher with Python's preference order: alternatives
in written order, greedy repetition longest-first, lazy repetition
shortest-first.  Each primitive piece maps a position to its candidate end
positions in preference order.  The flags of the compilation
(extractor.py:37) are built in: `re.MULTILINE` in the line anchors,
`re.DOTALL` in the any-character pieces, `re.IGNORECASE` in the unit
alternation (the only letters in either pattern). -/

/-- Candidate end positions of a greedy `X+` on character class `p` at `i`:
the whole run first, then each shorter nonempty prefix. -/
def rachaMasEn (p : Char → Bool) (s : List Char) (i : ℕ) : List ℕ :=
  (List.range ((s.drop i).takeWhile p).length).map
    (fun k => i + ((s.drop i).takeWhile p).length - k)

/-- Candidate end positions of a greedy `X*` on character class `p` at `i`:
the whole run first, down to the empty match. -/
def rachaStarEn (p : Char → Bool) (s : List Char) (i : ℕ) : List ℕ :=
  (List.range (((s.drop i).takeWhile p).length + 1)).map
    (fun k => i + ((s.drop i).takeWhile p).length - k)

/-- Candidate end positions of a lazy `.+?` under `re.DOTALL` at `i`:
every position after `i` up to the end of the text, shortest first. -/
def puntoMasPerezosoEn (s : List Char) (i : ℕ) : List ℕ :=
  (List.range (s.length - i)).map (fun k => i + 1 + k)

/-- Candidate end positions of a lazy `.*?` under `re.DOTALL` at `i`:
every position from `i` itself up to the end of the text, shortest first. -/
def puntoStarPerezosoEn (s : List Char) (i : ℕ) : List ℕ :=
  (List.range (s.length - i + 1)).map (fun k => i + k)

/-- `l` starts with at least `k` characters of which the first `k` are
digits. -/
def cifrasExactas (k : ℕ) (l : List Char) : Bool :=
  (l.take k).length = k && (l.take k).all esDigito

/-- Match lengths of the code sub-pattern `\d{2,3}\.\d{2}\.\d{2,3}` on a
prefix of `l`, given that the first digit group takes `a` characters:
first group of `a` digits, a period, exactly two digits, a period, then a
last group of three or else two digits (greedy order). -/
def finalesCodigoDesde (a : ℕ) (l : List Char) : List ℕ :=
  if cifrasExactas a l && l.get? a = some '.' then
    (if cifrasExactas 2 (l.drop (a + 1)) && (l.drop (a + 1)).get? 2 = some '.' then
      ((if cifrasExactas 3 (l.drop (a + 4)) then [a + 4 + 3] else []) ++
       (if cifrasExactas 2 (l.drop (a + 4)) then [a + 4 + 2] else []))
    else [])
  else []

/-- All match lengths of `\d{2,3}\.\d{2}\.\d{2,3}` on a prefix of `l`, in
backtracking preference order (first digit group greedy: three digits
before two). -/
def finalesCodigo (l : List Char) : List ℕ :=
  finalesCodigoDesde 3 l ++ finalesCodigoDesde 2 l

/-- The code group `(?P<codigo>\d{2,3}\.\d{2}\.\d{2,3})` as a piece. -/
def codigoEn (s : List Char) (i : ℕ) : List ℕ :=
  (finalesCodigo (s.drop i)).map (fun c => i + c)

/-- Case-insensitive prefix test (`re.IGNORECASE`). -/
def prefijoCI : List Char → List Char → Bool
  | [], _ => true
  | _ :: _, [] => false
  | a :: as, b :: bs => (a.toLower = b.toLower) && prefijoCI as bs

/-- The unit alternation `(ud|m2|m3|kg|ml|m|l|uds)` at position `i`, with
candidates in the written order of the alternation, case-insensitively. -/
def unidadEn (s : List Char) (i : ℕ) : List ℕ :=
  (["ud", "m2", "m3", "kg", "ml", "m", "l", "uds"]).filterMap
    (fun w => if prefijoCI w.data (s.drop i) then some (i + w.length) else none)

/-- One piece of a compiled pattern: a primitive (candidate end positions
in preference order), a capturing group around a primitive, the MULTILINE
line anchors `^` and `$`, or a zero-width lookahead. -/
inductive Pieza where
  | prim (f : List Char → ℕ → List ℕ)
  | grupo (n : ℕ) (f : List Char → ℕ → List ℕ)
  | iniLinea
  | finLinea
  | vista (t : List Char → ℕ → Bool)

/-- First success of a continuation over a candidate list — the engine of
backtracking preference. -/
def primeroQue (xs : List ℕ) (k : ℕ → Option α) : Option α :=
  match xs with
  | [] => none
  | x :: r =>
    match k x with
    | some v => some v
    | none => primeroQue r k

/-- Run a piece sequence at position `i` of `s` with accumulated captures,
returning the end position and captures of the preferred match, exactly as
Python's backtracking does on these patterns. -/
def runPiezas (s : List Char) :
    List Pieza → ℕ → List (ℕ × ℕ × ℕ) → Option (ℕ × List (ℕ × ℕ × ℕ))
  | [], i, caps => some (i, caps)
  | Pieza.prim f :: resto, i, caps =>
    primeroQue (f s i) (fun j => runPiezas s resto j caps)
  | Pieza.grupo n f :: resto, i, caps =>
    primeroQue (f s i) (fun j => runPiezas s resto j (caps ++ [(n, i, j)]))
  | Pieza.iniLinea :: resto, i, caps =>
    if i = 0 ∨ s.get? (i - 1) = some '\n' then runPiezas s resto i caps else none
  | Pieza.finLinea :: resto, i, caps =>
    if i = s.length ∨ s.get? i = some '\n' then runPiezas s resto i caps else none
  | Pieza.vista t :: resto, i, caps =>
    if t s i then runPiezas s resto i caps else none

/-- `re.finditer`: try a match at each position left to right, emit
non-overlapping matches, resume after each match (or one past a
zero-width one).  `fuel` bounds the loop; the caller passes more fuel than
the scan can consume, since the position strictly increases. -/
def buscaDesde (s : List Char) (piezas : List Pieza) :
    ℕ → ℕ → List (ℕ × ℕ × List (ℕ × ℕ × ℕ))
  | 0, _ => []
  | fuel + 1, i =>
    if i > s.length then []
    else
      match runPiezas s piezas i [] with
      | some (j, caps) =>
        (i, j, caps) :: buscaDesde s piezas fuel (if i < j then j else i + 1)
      | none => buscaDesde s piezas fuel (i + 1)

/-- All matches of a pattern on `s`, as `(start, end, captures)`. -/
def buscaTodas (piezas : List Pieza) (s : List Char) :
    List (ℕ × ℕ × List (ℕ × ℕ × ℕ)) :=
  buscaDesde s piezas (s.length + 2) 0

/-- The text captured by group `n`. -/
def textoGrupo (s : List Char) (caps : List (ℕ × ℕ × ℕ)) (n : ℕ) : List Char :=
  match caps.find? (fun c => c.1 = n) with
  | some c => (s.drop c.2.1).take (c.2.2 - c.2.1)
  | none => []

/-- The lookahead of the block pattern,
`(?=\s*\d{2,3}\.\d{2}\.\d{2,3}\s+(?:ud|m2|m3|kg|ml|m|l|uds)|$)`: either a
next code+unit header starts here (up to whitespace), or a MULTILINE `$`
holds. -/
def vistaBloque (s : List Char) (i : ℕ) : Bool :=
  (runPiezas s [Pieza.prim (rachaStarEn esBlanco), Pieza.prim codigoEn,
    Pieza.prim (rachaMasEn esBlanco), Pieza.prim unidadEn] i []).isSome
  || (i == s.length) || (s.get? i == some '\n')

/-- The numeric-field class `[\d.,]`. -/
def esNumCls (c : Char) : Bool := esDigito c || c = '.' || c = ','

/-- The compiled `bloque_medicion` pattern (extractor.py:28):
`^\s*(?P<codigo>…)\s+(?P<unidad>…)\s+(?P<texto>.*?)(?=\s*…|$)`. -/
def piezasBloque : List Pieza :=
  [Pieza.iniLinea,                      -- ^   (MULTILINE)
   Pieza.prim (rachaStarEn esBlanco),   -- \s*
   Pieza.grupo 1 codigoEn,              -- (?P<codigo>\d{2,3}\.\d{2}\.\d{2,3})
   Pieza.prim (rachaMasEn esBlanco),    -- \s+
   Pieza.grupo 2 unidadEn,              -- (?P<unidad>ud|m2|m3|kg|ml|m|l|uds)
   Pieza.prim (rachaMasEn esBlanco),    -- \s+
   Pieza.grupo 3 puntoStarPerezosoEn,   -- (?P<texto>.*?)   (DOTALL)
   Pieza.vista vistaBloque]             -- (?=\s*codigo\s+unidad|$)

/-- The compiled `fila_presupuesto` pattern (extractor.py:30):
`^\s*(?P<codigo>…)\s+(?P<desc_corta>.+?)\s+(?P<cantidad>[\d.,]+)\s+(?P<precio>[\d.,]+)\s+(?P<importe>[\d.,]+)\s*$`. -/
def piezasFila : List Pieza :=
  [Pieza.iniLinea,                      -- ^   (MULTILINE)
   Pieza.prim (rachaStarEn esBlanco),   -- \s*
   Pieza.grupo 1 codigoEn,              -- (?P<codigo>\d{2,3}\.\d{2}\.\d{2,3})
   Pieza.prim (rachaMasEn esBlanco),    -- \s+
   Pieza.grupo 2 puntoMasPerezosoEn,    -- (?P<desc_corta>.+?)   (DOTALL)
   Pieza.prim (rachaMasEn esBlanco),    -- \s+
   Pieza.grupo 3 (rachaMasEn esNumCls), -- (?P<cantidad>[\d.,]+)
   Pieza.prim (rachaMasEn esBlanco),    -- \s+
   Pieza.grupo 4 (rachaMasEn esNumCls), -- (?P<precio>[\d.,]+)
   Pieza.prim (rachaMasEn esBlanco),    -- \s+
   Pieza.grupo 5 (rachaMasEn esNumCls), -- (?P<importe>[\d.,]+)
   Pieza.prim (rachaStarEn esBlanco),   -- \s*
   Pieza.finLinea]                      -- $   (MULTILINE)

/-- One match of the block pattern, by named group. -/
structure Bloque where
  codigo : String
  unidad : String
  texto : String
deriving DecidableEq

/-- One match of the summary-row pattern, by named group. -/
structure Fila where
  codigo : String
  descCorta : String
  cantidad : String
  precio : String
  importe : String
deriving DecidableEq

/-- All block matches of the measurements text, in text order
(`finditer` at extractor.py:64). -/
def bloqueMatches (s : String) : List Bloque :=
  (buscaTodas piezasBloque s.data).map (fun m =>
    ⟨⟨textoGrupo s.data m.2.2 1⟩, ⟨textoGrupo s.data m.2.2 2⟩,
     ⟨textoGrupo s.data m.2.2 3⟩⟩)

/-- All summary-row matches of the budget-table text, in text order
(`finditer` at extractor.py:78). -/
def filaMatches (s : String) : List Fila :=
  (buscaTodas piezasFila s.data).map (fun m =>
    ⟨⟨textoGrupo s.data m.2.2 1⟩, ⟨textoGrupo s.data m.2.2 2⟩,
     ⟨textoGrupo s.data m.2.2 3⟩, ⟨textoGrupo s.data m.2.2 4⟩,
     ⟨textoGrupo s.data m.2.2 5⟩⟩)

example :
    filaMatches "10.01.01 DESC 10,00 100,00 1.000,00" =
      [⟨"10.01.01", "DESC", "10,00", "100,00", "1.000,00"⟩] := by decide

example : filaMatches "" = [] := by decide

example : bloqueMatches "" = [] := by decide

example :
    bloqueMatches "10.01.01 ud Una descripcion larga\notra linea" =
      [⟨"10.01.01", "ud", "Una descripcion larga"⟩] := by decide

example :
    bloqueMatches "\n    10.01.01 ud Primera descripcion.\n    Mas detalles que no se usan.\n\n    10.01.02 m2 Segunda descripcion.\n    " =
      [⟨"10.01.01", "ud", "Primera descripcion."⟩,
       ⟨"10.01.02", "m2", "Segunda descripcion."⟩] := by decide

example :
    filaMatches "\n    10.01.01 DESC_RESUMEN_1   10,00   100,00   1.000,00\n    10.01.02 DESC_RESUMEN_2   5,00    20,00    100,00\n    " =
      [⟨"10.01.01", "DESC_RESUMEN_1", "10,00", "100,00", "1.000,00"⟩,
       ⟨"10.01.02", "DESC_RESUMEN_2", "5,00", "20,00", "100,00"⟩] := by decide

example :
    filaMatches "10.01.01 X 1,0 2,0 3,0 4,0" =
      [⟨"10.01.01", "X 1,0", "2,0", "3,0", "4,0"⟩] := by decide

example : bloqueMatches "99.88.77 M2 MAYUS" = [⟨"99.88.77", "M2", "MAYUS"⟩] := by
  decide

/-! ## Pass 1: the metadata mapping (extractor.py:63-72)

`mapa_metadatos` is a Python `dict` filled in match order; it is modelled
as an association list with the `dict` update discipline: assigning to an
existing key replaces its value in place, assigning to a new key appends
it.  The stored record keeps the first line of the stripped block body and
the upper-cased unit. -/

/-- The value stored per code: `{'DESCRIPCIÓN': …, 'UNIDAD': …}`. -/
structure Meta where
  descripcion : String
  unidad : String
deriving DecidableEq

/-- Python's `str.strip`. -/
def stripPy (s : String) : String :=
  ⟨((s.data.dropWhile esBlanco).reverse.dropWhile esBlanco).reverse⟩

/-- `texto.strip().split('\n')[0]`: strip, then first line. -/
def primeraLinea (s : String) : String :=
  ⟨(stripPy s).data.takeWhile (fun c => ¬ c = '\n')⟩

/-- The `Meta` built from one block match (extractor.py:68-71). -/
def metaDe (b : Bloque) : Meta :=
  ⟨primeraLinea b.texto, ⟨b.unidad.data.map Char.toUpper⟩⟩

/-- `dict` assignment `m[k] = v`: replace in place if the key exists,
append otherwise. -/
def ponDict (m : List (String × Meta)) (k : String) (v : Meta) :
    List (String × Meta) :=
  if m.any (fun e => e.1 = k) then
    m.map (fun e => if e.1 = k then (k, v) else e)
  else m ++ [(k, v)]

/-- `dict` lookup `m.get(k)`. -/
def buscaDict (m : List (String × Meta)) (k : String) : Option Meta :=
  (m.find? (fun e => e.1 = k)).map (fun e => e.2)

/-- The metadata mapping built from the block matches in order
(extractor.py:63-71). -/
def buildMapa (bs : List Bloque) : List (String × Meta) :=
  bs.foldl (fun m b => ponDict m b.codigo (metaDe b)) []

/-- Spec-side reading of "last occurrence wins": the metadata of the last
block carrying code `k`, scanning from the end. -/
def ultimaMeta : List Bloque → String → Option Meta
  | [], _ => none
  | b :: bs, k =>
    match ultimaMeta bs k with
    | some v => some v
    | none => if b.codigo = k then some (metaDe b) else none

/-- Spec-side reading of "insertion order follows order of appearance":
each distinct value of a list at its first appearance, skipping values
already seen. -/
def primerasAux (vistas : List String) : List String → List String
  | [] => []
  | c :: cs =>
    if vistas.contains c then primerasAux vistas cs
    else c :: primerasAux (vistas ++ [c]) cs

/-- The distinct values of a list in first-appearance order. -/
def primerasApariciones (l : List String) : List String := primerasAux [] l

/-! ## Pass 2: reconciliation (extractor.py:77-93) -/

/-- One reconciled record (`partida`, extractor.py:85-92), numeric fields
already normalized. -/
structure Partida where
  codigo : String
  descripcion : String
  unidad : String
  cantidad : ℚ
  precio : ℚ
  importe : ℚ
deriving DecidableEq

/-- Build one `partida` from a row match (extractor.py:80-92): take the
mapped metadata when the code is present, else the row's own short
description and the literal default unit `"UD"`; convert the three
numeric fields. -/
def mkPartida (mapa : List (String × Meta)) (f : Fila) : Partida :=
  match buscaDict mapa f.codigo with
  | some v =>
    ⟨f.codigo, v.descripcion, v.unidad,
     convertir_numero f.cantidad, convertir_numero f.precio,
     convertir_numero f.importe⟩
  | none =>
    ⟨f.codigo, f.descCorta, "UD",
     convertir_numero f.cantidad, convertir_numero f.precio,
     convertir_numero f.importe⟩

/-- The `partidas_finales` loop (extractor.py:78-93): one record per row
match, in text order. -/
def reconcileRows (mapa : List (String × Meta)) (rows : List Fila) :
    List Partida :=
  rows.map (mkPartida mapa)

/-! ## The natural sort (extractor.py:102-107)

`df['CÓDIGO'].str.split('.', expand=True)` builds one column per segment
of the longest code, leaving missing cells empty; `fillna('0')` writes
`'0'` into them; `pd.to_numeric(…, errors='coerce')` turns each of the
first three columns into numbers with `NaN` for anything unparseable; and
`sort_values(by=['c1','c2','c3'])` sorts the rows by the three columns
lexicographically — for several sort keys pandas uses a stable
lexicographic sort (`lexsort`; the `kind` option only applies to a single
key) with `NaN` placed last within each key.  Accessing `temp_cols[2]`
when no code produced three segments raises a `KeyError`. -/

/-- Python's `str.split('.')`: split on every period, keeping empty
segments (so the empty string yields one empty segment). -/
def parteEnPuntos : List Char → List (List Char)
  | [] => [[]]
  | c :: r =>
    if c = '.' then [] :: parteEnPuntos r
    else
      match parteEnPuntos r with
      | seg :: segs => (c :: seg) :: segs
      | [] => [[c]]

/-- `pd.to_numeric(·, errors='coerce')` on a segment: strip whitespace,
optional sign, nonempty digits parse as an integer; anything else is
`NaN`, modelled `none`.  (Segments contain no period — the code was split
on periods — so decimal forms cannot arise; scientific notation inside a
segment is not modelled.) -/
def coerceNum (l : List Char) : Option ℤ :=
  match
    (match recorta l with
     | '+' :: r => (false, r)
     | '-' :: r => (true, r)
     | r => (false, r)) with
  | (neg, r) =>
    if r ≠ [] ∧ r.all esDigito then some (conSigno neg (valorDigitos r))
    else none

/-- The three sort columns of one row: segments of the code padded with
`'0'` (the `fillna`), first three taken, each coerced. -/
def claveDe (p : Partida) : Option ℤ × Option ℤ × Option ℤ :=
  match parteEnPuntos p.codigo.data ++ [['0'], ['0'], ['0']] with
  | s1 :: s2 :: s3 :: _ => (coerceNum s1, coerceNum s2, coerceNum s3)
  | _ => (none, none, none)

/-- Ascending order on one sort column, `NaN` (`none`) after every
number. -/
def optMenorIg : Option ℤ → Option ℤ → Bool
  | some a, some b => decide (a ≤ b)
  | some _, none => true
  | none, some _ => false
  | none, none => true

/-- Lexicographic order on the three sort columns. -/
def claveMenorIg (x y : Option ℤ × Option ℤ × Option ℤ) : Bool :=
  if x.1 = y.1 then
    (if x.2.1 = y.2.1 then optMenorIg x.2.2 y.2.2 else optMenorIg x.2.1 y.2.1)
  else optMenorIg x.1 y.1

/-- The row order of `sort_values(by=['c1','c2','c3'])`. -/
def ordenPandas (a b : Partida) : Prop :=
  claveMenorIg (claveDe a) (claveDe b) = true

instance : DecidableRel ordenPandas :=
  fun _ _ => inferInstanceAs (Decidable (_ = true))

/-- Number of columns `str.split('.', expand=True)` produces: the largest
segment count over the codes. -/
def anchoColumnas (ps : List Partida) : ℕ :=
  ps.foldl (fun m p => max m (parteEnPuntos p.codigo.data).length) 0

/-- Outcome of a pipeline stage: a value, or an uncaught Python
exception with its message. -/
inductive Resultado where
  | ok (partidas : List Partida)
  | fallo (mensaje : String)
deriving DecidableEq

/-- The natural-sort stage (extractor.py:102-107).  When no code has three
segments the frame lacks column 2 and `temp_cols[2]` raises `KeyError`;
otherwise the rows are sorted stably by the three coerced columns.
`List.insertionSort` computes exactly the stable ascending sort that
pandas' `lexsort` produces: both place each row after every row that must
not come after it and keep the original order of rows with equal keys. -/
def pandasNatSort (ps : List Partida) : Resultado :=
  if anchoColumnas ps < 3 then
    Resultado.fallo "KeyError: columna de segmento inexistente"
  else Resultado.ok (List.insertionSort ordenPandas ps)

/-! ## The pipeline body (extractor.py:54-112) -/

/-- The `ValueError` message of extractor.py:97. -/
def msgVacio : String :=
  "No se encontraron datos en la tabla de resumen. Revisa el rango de páginas y los patrones."

/-- The body of `procesar_pdf` after page-text extraction, as a function
of the two region texts: pass 1 builds the metadata mapping from the
measurements text; pass 2 matches the budget-table rows and reconciles
them against the mapping; an empty row list raises the `ValueError` of
extractor.py:96-97; otherwise the records are naturally sorted.  (The
page-text provider itself is an external collaborator, spec §6.) -/
def procesar_pdf_core (textoMediciones textoPresupuesto : String) : Resultado :=
  match reconcileRows (buildMapa (bloqueMatches textoMediciones))
      (filaMatches textoPresupuesto) with
  | [] => Resultado.fallo msgVacio
  | p :: ps => pandasNatSort (p :: ps)

example :
    procesar_pdf_core "" "10.01.01 DESC 10,00 100,00 1.000,00" =
      Resultado.ok [⟨"10.01.01", "DESC", "UD", 10, 100, 1000⟩] := by decide

example : procesar_pdf_core "10.01.01 ud Cosa" "" = Resultado.fallo msgVacio := by
  decide

/-! ## The code shape (extractor.py:26-31)

Both patterns recognize a line-item code through the same sub-pattern
`\d{2,3}\.\d{2}\.\d{2,3}`; `matchesCodigo` is that sub-pattern applied to
a whole string. -/

/-- A string is a line-item code when the code sub-pattern matches all of
it: some candidate match length equals the string's length. -/
def matchesCodigo (s : String) : Bool :=
  decide (s.data.length ∈ finalesCodigo s.data)

example : matchesCodigo "10.01.02" = true := by decide
example : matchesCodigo "100.01.021" = true := by decide
example : matchesCodigo "10.01" = false := by decide
example : matchesCodigo "10.001.02" = false := by decide
example : matchesCodigo "1.01.02" = false := by decide

/-! ## The entity analyzer (Core/nlp_model.py)

`_procesar_entidades` (nlp_model.py:105-118) is embedded over an explicit
entity list; the external spaCy pipeline that produces that list is out of
scope (spec §1, §6) and is modelled, where a claim needs it, from the
`EntityRuler` configuration of nlp_model.py:30-36. -/

/-- One tagged entity span, `{text, label}` (spec §6). -/
structure Entidad where
  texto : String
  etiqueta : String
deriving DecidableEq

/-- One technical alert `{código, mensaje}` (nlp_model.py:115-118). -/
structure Alerta where
  codigo : String
  mensaje : String
deriving DecidableEq

/-- The accumulating analysis state (nlp_model.py:73-77): material counts
keyed in first-use order (a `defaultdict`), the set of standards found,
and the ordered alert list. -/
structure ResultadosNLP where
  conteo : List (String × ℕ)
  normativas : List String
  alertas : List Alerta
deriving DecidableEq

/-- `defaultdict(int)` increment: bump in place, or append with count 1. -/
def incrementa (m : List (String × ℕ)) (k : String) : List (String × ℕ) :=
  if m.any (fun e => e.1 = k) then
    m.map (fun e => if e.1 = k then (e.1, e.2 + 1) else e)
  else m ++ [(k, 1)]

/-- `set.add`. -/
def agregaUnico (ns : List String) (x : String) : List String :=
  if ns.contains x then ns else ns ++ [x]

/-- The alert message of nlp_model.py:117. -/
def msgContactor : String :=
  "Se menciona 'contactor' sin parámetro técnico (ej: 4x25A)."

/-- Exact (case-sensitive) prefix test. -/
def prefijoEx : List Char → List Char → Bool
  | [], _ => true
  | _ :: _, [] => false
  | a :: as, b :: bs => (a = b) && prefijoEx as bs

/-- Substring occurrence, Python's `sub in s`. -/
def apareceEn (sub : List Char) : List Char → Bool
  | [] => sub.isEmpty
  | c :: r => prefijoEx sub (c :: r) || apareceEn sub r

/-- `"contactor" in descripcion.lower()` (nlp_model.py:114). -/
def hayContactor (descripcion : String) : Bool :=
  apareceEn "contactor".data (descripcion.data.map Char.toLower)

/-- One step of `_procesar_entidades` (nlp_model.py:105-118): count
`MATERIAL` entities lower-cased, collect `NORMATIVA` entities
upper-cased, then append one alert when the description mentions
`contactor` (case-insensitively) and no entity is labelled `PARAMETRO`. -/
def procesarEntidades (ents : List Entidad) (codigo descripcion : String)
    (r : ResultadosNLP) : ResultadosNLP :=
  match
    ents.foldl (fun a e =>
      if e.etiqueta = "MATERIAL" then
        { a with conteo := incrementa a.conteo ⟨e.texto.data.map Char.toLower⟩ }
      else if e.etiqueta = "NORMATIVA" then
        { a with normativas := agregaUnico a.normativas ⟨e.texto.data.map Char.toUpper⟩ }
      else a) r with
  | r1 =>
    if hayContactor descripcion && !(ents.any (fun e => e.etiqueta = "PARAMETRO"))
    then { r1 with alertas := r1.alertas ++ [⟨codigo, msgContactor⟩] }
    else r1

/-- `re.search` of the ruler regex `\d+x\d+[aA]` (nlp_model.py:35) at one
position: a nonempty digit run, `x`, a nonempty digit run, then `a` or
`A`. -/
def esParamEn (l : List Char) : Bool :=
  match digitosYResto 0 0 l with
  | (_, k1, r1) =>
    match r1 with
    | 'x' :: r2 =>
      (match digitosYResto 0 0 r2 with
       | (_, k2, r3) =>
         decide (0 < k1) && decide (0 < k2) &&
           (match r3 with
            | c :: _ => c = 'a' || c = 'A'
            | [] => false))
    | _ => false

/-- `re.search` of `\d+x\d+[aA]` anywhere in a token's text. -/
def buscaParam : List Char → Bool
  | [] => false
  | c :: r => esParamEn (c :: r) || buscaParam r

/-- Split into maximal whitespace-free tokens, accumulating the current
token reversed. -/
def tokensAux (actual : List Char) : List Char → List (List Char)
  | [] => if actual.isEmpty then [] else [actual.reverse]
  | c :: r =>
    if esBlanco c then
      (if actual.isEmpty then tokensAux [] r else actual.reverse :: tokensAux [] r)
    else tokensAux (c :: actual) r

/-- Split into maximal whitespace-free tokens. -/
def tokensBlancos (l : List Char) : List (List Char) := tokensAux [] l

/-- Modelled from the spec: the external entity-tagging model (spec §1,
§6) behind `self.nlp`, whose tagging the pipeline consumes as a
`{text, label}` span list.  Only the `PARAMETRO` entities are modelled —
they alone decide the alert condition; `MATERIAL`/`NORMATIVA` entities
feed only the counters.  Tokenization is modelled as whitespace
splitting, and a token is tagged `PARAMETRO` exactly when the ruler
regex `\d+x\d+[aA]` (nlp_model.py:35) matches inside its text. -/
def entidadesRegla (descripcion : String) : List Entidad :=
  (tokensBlancos descripcion.data).filterMap (fun t =>
    if buscaParam t then some ⟨⟨t⟩, "PARAMETRO"⟩ else none)

/-- The per-item loop of `analizar` (nlp_model.py:79-97) over
`(codigo, descripcion)` pairs: items with an empty description are
skipped, the rest are tagged and folded through `_procesar_entidades`. -/
def analizaPartidas (ps : List (String × String)) : ResultadosNLP :=
  ps.foldl (fun r pr =>
    if pr.2 = "" then r
    else procesarEntidades (entidadesRegla pr.2) pr.1 pr.2 r)
    ⟨[], [], []⟩

example :
    (analizaPartidas [("01.01.01", "Instalar contactor")]).alertas =
      [⟨"01.01.01", msgContactor⟩] := by decide

example :
    (analizaPartidas [("01.01.01", "Instalar contactor 4x25A")]).alertas = [] := by
  decide

/-! ## The consistency checker (spec §4.5)

`main.py` and `Core/cli.py` import a second extractor variant,
`ExtractorPDF`, from `Core.extractor`, but the provided
`Core/extractor.py` defines only `ExtractorPresupuestos`; the variant's
module body — where the spec's `ConsistencyChecker` lives — is not among
the provided sources.  It is therefore modelled from the spec. -/

/-- Modelled from the spec: `ConsistencyChecker` of the `ExtractorPDF`
variant (spec §2 item 6, §4.5): "for every ReconciledItem, compute
`computedTotal = round(quantity * unitPrice, 2)`".  Rounding to two
decimals is rounding of `x·100` to an integer over 100; the spec fixes no
tie-breaking rule and no claim depends on one. -/
def totalCalculado (p : Partida) : ℚ :=
  (round (p.cantidad * p.precio * 100) : ℚ) / 100

/-- Modelled from the spec (§4.5): an item is flagged when
`abs(total - computedTotal) > 0.1`. -/
def esInconsistente (p : Partida) : Bool :=
  decide ((1 : ℚ) / 10 < |p.importe - totalCalculado p|)

/-- Modelled from the spec (§4.5, §7 ConsistencyWarning): one pass over
the reconciled items accumulating the items themselves unchanged and, per
flagged item, a warning carrying its code — "logged/counted, item is
still included in the final output". -/
def revisaConsistencia (ps : List Partida) : List Partida × List String :=
  ps.foldl (fun ac p =>
    (ac.1 ++ [p], if esInconsistente p then ac.2 ++ [p.codigo] else ac.2))
    ([], [])

/-! ## Claim-side definitions

Definitions following the words of a claim rather than the source, used
only to compare the two. -/

/-- The sort key as claim C4 words it: up to three dot segments compared
as integers, with missing segments and segments that fail to parse both
read as `0`. -/
def claveReclamo (p : Partida) : ℤ × ℤ × ℤ :=
  match parteEnPuntos p.codigo.data ++ [['0'], ['0'], ['0']] with
  | s1 :: s2 :: s3 :: _ =>
    ((coerceNum s1).getD 0, (coerceNum s2).getD 0, (coerceNum s3).getD 0)
  | _ => (0, 0, 0)

/-- Lexicographic order on integer key triples. -/
def claveTriMenorIg (x y : ℤ × ℤ × ℤ) : Bool :=
  if x.1 = y.1 then
    (if x.2.1 = y.2.1 then decide (x.2.2 ≤ y.2.2) else decide (x.2.1 ≤ y.2.1))
  else decide (x.1 ≤ y.1)

/-- The item order claim C4 describes. -/
def ordenReclamo (a b : Partida) : Prop :=
  claveTriMenorIg (claveReclamo a) (claveReclamo b) = true

instance : DecidableRel ordenReclamo :=
  fun _ _ => inferInstanceAs (Decidable (_ = true))

/-- The technical-parameter shape as claim C7 words it: digits, `x`,
digits, followed by an optional letter — so the bare `digits x digits`
already qualifies — at some position of the text. -/
def esParamReclamoEn (l : List Char) : Bool :=
  match digitosYResto 0 0 l with
  | (_, k1, r1) =>
    match r1 with
    | 'x' :: r2 =>
      (match digitosYResto 0 0 r2 with
       | (_, k2, _) => decide (0 < k1) && decide (0 < k2))
    | _ => false

/-- Search of the claim C7 shape anywhere in a description. -/
def formaParamReclamo : List Char → Bool
  | [] => false
  | c :: r => esParamReclamoEn (c :: r) || formaParamReclamo r

example : formaParamReclamo "Instalar contactor 4x25".data = true := by decide
example : buscaParam "4x25A".data = true := by decide
example : buscaParam "4x25".data = false := by decide

/-! # Theorems -/

/-- `_convertir_numero` as transformation, parse, and fallback. -/
lemma convertir_numero_eq_getD (s : String) :
    convertir_numero s = (pyFloatDe (transformaPy s)).getD 0 := by
  unfold convertir_numero
  cases pyFloatDe (transformaPy s) <;> rfl

/-- C8: For every input string (including empty, non-numeric, or null),
the number normalizer `_convertir_numero` returns a float and never
raises; on any parse failure it returns exactly `0.0`.  In the embedding
the function is total by construction (the `try`/`except` of
extractor.py:41-44 is the fallback branch), and whenever the float parse
of the transformed string fails the result is exactly `0`. -/
theorem C8_convertir_numero_fallo_cero :
    (∀ s : String, pyFloatDe (transformaPy s) = none → convertir_numero s = 0) ∧
      convertir_numero "invalido" = 0 ∧ convertir_numero "" = 0 ∧
      convertir_numero "None" = 0 := by
  refine ⟨fun s h => ?_, by decide, by decide, by decide⟩
  rw [convertir_numero_eq_getD, h]
  rfl

/-- Witness for C8 at the concrete failing input `"abc"`. -/
theorem C8_convertir_numero_fallo_cero_witness :
    pyFloatDe (transformaPy "abc") = none ∧ convertir_numero "abc" = 0 :=
  ⟨by decide, C8_convertir_numero_fallo_cero.1 "abc" (by decide)⟩

/-- On a comma-free string the comma step of the transformation does
nothing. -/
lemma transformaPy_sin_coma {s : String}
    (h : s.data.all (fun c => ¬ c = ',') = true) :
    transformaPy s = s.data.filter (fun c => ¬ c = '.') := by
  unfold transformaPy
  have h' : ∀ c ∈ s.data, ¬ c = ',' := by
    intro c hc
    have := List.all_eq_true.mp h c hc
    simpa using this
  have : ∀ c ∈ s.data.filter (fun c => ¬ c = '.'), (if c = ',' then '.' else c) = c := by
    intro c hc
    have hm := List.mem_of_mem_filter hc
    simp [h' c hm]
  calc (s.data.filter (fun c => ¬ c = '.')).map (fun c => if c = ',' then '.' else c)
      = (s.data.filter (fun c => ¬ c = '.')).map id := List.map_congr_left this
    _ = s.data.filter (fun c => ¬ c = '.') := List.map_id _

/-- C10 (implicit): on a string with periods but no comma,
`_convertir_numero` deletes every period before parsing, so a dot-decimal
string is not read at its arithmetic value: the result is the parse of
the digit string with all periods removed, and concretely
`_convertir_numero("1.5") = 15.0`, `_convertir_numero("100.00") =
10000.0`. -/
theorem C10_puntos_son_miles :
    (∀ s : String, s.data.all (fun c => ¬ c = ',') = true →
      convertir_numero s =
        (pyFloatDe (s.data.filter (fun c => ¬ c = '.'))).getD 0) ∧
      convertir_numero "1.5" = 15 ∧ convertir_numero "100.00" = 10000 := by
  refine ⟨fun s h => ?_, by decide, by decide⟩
  rw [convertir_numero_eq_getD, transformaPy_sin_coma h]

/-- Witness for C10 at the concrete input `"1.5"`. -/
theorem C10_puntos_son_miles_witness :
    ("1.5".data.all (fun c => ¬ c = ',') = true) ∧
      convertir_numero "1.5" = (pyFloatDe ("1.5".data.filter (fun c => ¬ c = '.'))).getD 0 :=
  ⟨by decide, C10_puntos_son_miles.1 "1.5" (by decide)⟩

/-! ### C3: locale numeric strings -/

/-- Assembly of the `(\.\d{3})*` part of the locale pattern: each group
preceded by its period. -/
def pegaGrupos : List (List Char) → List Char
  | [] => []
  | g :: gs => ('.' :: g) ++ pegaGrupos gs

/-- The same groups with the periods removed. -/
def juntaGrupos : List (List Char) → List Char
  | [] => []
  | g :: gs => g ++ juntaGrupos gs

/-- The arithmetic value of a locale numeric string (spec §8), read with
`.` as thousands separator and `,` as decimal separator: the digit groups
joined form the integer part, the post-comma digits the decimals. -/
def valorLocale (g0 : List Char) (gs : List (List Char)) (fr : List Char) : ℚ :=
  (valorDigitos (g0 ++ juntaGrupos gs) : ℚ) + (valorDigitos fr : ℚ) / 10 ^ fr.length

lemma digito_ne {c x : Char} (h : esDigito c = true) (hx : esDigito x = false) :
    ¬ c = x := by
  intro e
  rw [e, hx] at h
  cases h

lemma blanco_no_digito {c : Char} (h : esBlanco c = true) : esDigito c = false := by
  simp only [esBlanco, Bool.or_eq_true, decide_eq_true_eq] at h
  rcases h with ((((e | e) | e) | e) | e) | e <;> subst e <;> decide

lemma digito_no_blanco {c : Char} (h : esDigito c = true) : esBlanco c = false := by
  cases hb : esBlanco c with
  | false => rfl
  | true => rw [blanco_no_digito hb] at h; cases h

lemma dropWhile_nada {p : Char → Bool} {l : List Char}
    (h : ∀ c ∈ l, p c = false) : l.dropWhile p = l := by
  cases l with
  | nil => rfl
  | cons c r => simp [List.dropWhile_cons, h c (List.mem_cons_self c r)]

lemma recorta_id {l : List Char} (h : ∀ c ∈ l, esBlanco c = false) :
    recorta l = l := by
  unfold recorta
  rw [dropWhile_nada h, dropWhile_nada (fun c hc => h c (List.mem_reverse.mp hc)),
    List.reverse_reverse]

lemma quitaSigno_sin_signo {c : Char} (r : List Char)
    (h1 : ¬ c = '+') (h2 : ¬ c = '-') : quitaSigno (c :: r) = (false, c :: r) := by
  simp [quitaSigno, h1, h2]

lemma digitosYResto_no_digito (acc k : ℕ) {c : Char} (r : List Char)
    (h : esDigito c = false) : digitosYResto acc k (c :: r) = (acc, k, c :: r) := by
  simp [digitosYResto, h]

lemma digitosYResto_avanza :
    ∀ (ds : List Char), (∀ c ∈ ds, esDigito c = true) →
      ∀ (acc k : ℕ) (r : List Char),
        digitosYResto acc k (ds ++ r) =
          digitosYResto (ds.foldl (fun a c => 10 * a + (c.toNat - 48)) acc)
            (k + ds.length) r
  | [], _, acc, k, r => by simp [List.foldl]
  | c :: t, h, acc, k, r => by
    have hc : esDigito c = true := h c (List.mem_cons_self c t)
    have ht : ∀ x ∈ t, esDigito x = true :=
      fun x hx => h x (List.mem_cons_of_mem c hx)
    rw [List.cons_append,
      show digitosYResto acc k (c :: (t ++ r)) =
        digitosYResto (10 * acc + (c.toNat - 48)) (k + 1) (t ++ r) from by
          simp [digitosYResto, hc],
      digitosYResto_avanza t ht _ _ r]
    simp only [List.foldl_cons, List.length_cons]
    congr 1
    omega

lemma filtra_digitos {l : List Char} (h : ∀ c ∈ l, esDigito c = true) :
    l.filter (fun c => ¬ c = '.') = l := by
  rw [List.filter_eq_self]
  intro c hc
  simpa using digito_ne (h c hc) (by decide)

lemma mapa_sin_coma {l : List Char} (h : ∀ c ∈ l, ¬ c = ',') :
    l.map (fun c => if c = ',' then '.' else c) = l := by
  have he : ∀ c ∈ l, (if c = ',' then '.' else c) = c := fun c hc => by
    simp [h c hc]
  induction l with
  | nil => rfl
  | cons c r ih =>
    rw [List.map_cons, he c (List.mem_cons_self c r),
      ih (fun x hx => h x (List.mem_cons_of_mem c hx))
        (fun x hx => he x (List.mem_cons_of_mem c hx))]

lemma filtra_punto_cons (g : List Char) (h : ∀ c ∈ g, esDigito c = true) :
    ('.' :: g).filter (fun c => ¬ c = '.') = g := by
  rw [List.filter_cons,
    show (decide ¬('.' : Char) = '.') = false from by decide]
  simp only [Bool.false_eq_true, if_false]
  exact filtra_digitos h

lemma filtra_pega {gs : List (List Char)}
    (h : ∀ g ∈ gs, ∀ c ∈ g, esDigito c = true) :
    (pegaGrupos gs).filter (fun c => ¬ c = '.') = juntaGrupos gs := by
  induction gs with
  | nil => rfl
  | cons g t ih =>
    have hg : ∀ c ∈ g, esDigito c = true := h g (List.mem_cons_self g t)
    have ht : ∀ x ∈ t, ∀ c ∈ x, esDigito c = true :=
      fun x hx => h x (List.mem_cons_of_mem g hx)
    show (('.' :: g) ++ pegaGrupos t).filter _ = g ++ juntaGrupos t
    rw [List.filter_append, ih ht, filtra_punto_cons g hg]

lemma junta_digitos {gs : List (List Char)}
    (h : ∀ g ∈ gs, ∀ c ∈ g, esDigito c = true) :
    ∀ c ∈ juntaGrupos gs, esDigito c = true := by
  induction gs with
  | nil => intro c hc; cases hc
  | cons g t ih =>
    intro c hc
    simp only [juntaGrupos] at hc
    rcases List.mem_append.mp hc with h1 | h2
    · exact h g (List.mem_cons_self g t) c h1
    · exact ih (fun x hx => h x (List.mem_cons_of_mem g hx)) c h2

/-- On the assembled locale string the transformation of
`_convertir_numero` removes exactly the thousands periods and turns the
comma into the decimal period. -/
lemma transformaPy_locale (g0 : List Char) (gs : List (List Char))
    (fr : List Char) (h0 : ∀ c ∈ g0, esDigito c = true)
    (hg : ∀ g ∈ gs, ∀ c ∈ g, esDigito c = true)
    (hf : ∀ c ∈ fr, esDigito c = true) :
    transformaPy ⟨g0 ++ pegaGrupos gs ++ ',' :: fr⟩ =
      (g0 ++ juntaGrupos gs) ++ '.' :: fr := by
  unfold transformaPy
  rw [show (⟨g0 ++ pegaGrupos gs ++ ',' :: fr⟩ : String).data
      = (g0 ++ pegaGrupos gs) ++ ',' :: fr from rfl]
  have hcoma : (',' :: fr).filter (fun c => ¬ c = '.') = ',' :: fr := by
    rw [List.filter_cons, show (decide ¬(',' : Char) = '.') = true from by decide]
    simp only [if_true]
    rw [filtra_digitos hf]
  rw [List.filter_append, List.filter_append, filtra_digitos h0, filtra_pega hg,
    hcoma, List.map_append, List.map_append,
    mapa_sin_coma (fun c hc => digito_ne (h0 c hc) (by decide)),
    mapa_sin_coma (fun c hc => digito_ne (junta_digitos hg c hc) (by decide)),
    List.map_cons, show (if (',' : Char) = ',' then ('.' : Char) else ',') = '.'
      from by simp,
    mapa_sin_coma (fun c hc => digito_ne (hf c hc) (by decide))]

/-- `pyFloatDe` on an unsigned decimal literal `D.fr` with nonempty
integer part made of digits. -/
lemma pyFloatDe_digitos_punto (d : Char) (D' fr : List Char)
    (hD : ∀ c ∈ d :: D', esDigito c = true)
    (hfr : ∀ c ∈ fr, esDigito c = true) :
    pyFloatDe ((d :: D') ++ '.' :: fr) =
      some (Rat.divInt
        (Int.ofNat (valorDigitos (d :: D') * 10 ^ fr.length + valorDigitos fr))
        (Int.ofNat (10 ^ fr.length))) := by
  have hd : esDigito d = true := hD d (List.mem_cons_self d D')
  have hblanco : ∀ c ∈ (d :: D') ++ '.' :: fr, esBlanco c = false := by
    intro c hc
    rcases List.mem_append.mp hc with h1 | h2
    · exact digito_no_blanco (hD c h1)
    · rcases List.mem_cons.mp h2 with e | h3
      · rw [e]; decide
      · exact digito_no_blanco (hfr c h3)
  have h2 : quitaSigno ((d :: D') ++ '.' :: fr) = (false, (d :: D') ++ '.' :: fr) :=
    quitaSigno_sin_signo _ (digito_ne hd (by decide)) (digito_ne hd (by decide))
  have h3 : digitosYResto 0 0 ((d :: D') ++ '.' :: fr) =
      (valorDigitos (d :: D'), (d :: D').length, '.' :: fr) := by
    rw [digitosYResto_avanza (d :: D') hD 0 0 ('.' :: fr),
      digitosYResto_no_digito _ _ _ (by decide)]
    simp [valorDigitos]
  have h4 : digitosYResto 0 0 fr = (valorDigitos fr, fr.length, []) := by
    conv_lhs => rw [show fr = fr ++ [] from (List.append_nil fr).symm]
    rw [digitosYResto_avanza fr hfr 0 0 []]
    simp [valorDigitos, digitosYResto]
  unfold pyFloatDe
  rw [recorta_id hblanco, h2]
  simp only [h3, h4]
  rw [if_neg (by simp [List.length_cons])]
  simp [valorMant, conSigno]

/-- C3: For every string matching the locale-numeric pattern
`\d{1,3}(\.\d{3})*,\d+` — here presented by its parse: a first group `g0`
of one to three digits, further groups `gs` of exactly three digits each
preceded by a period, a comma, and a nonempty digit tail `fr` —
`_convertir_numero` returns exactly the arithmetic value of the string
read with `.` as thousands separator and `,` as decimal separator. -/
theorem C3_convertir_numero_locale (g0 : List Char) (gs : List (List Char))
    (fr : List Char)
    (hlen : 1 ≤ g0.length ∧ g0.length ≤ 3)
    (h0 : ∀ c ∈ g0, esDigito c = true)
    (hg : ∀ g ∈ gs, g.length = 3 ∧ ∀ c ∈ g, esDigito c = true)
    (_hfne : fr ≠ []) (hf : ∀ c ∈ fr, esDigito c = true) :
    convertir_numero ⟨g0 ++ pegaGrupos gs ++ ',' :: fr⟩ = valorLocale g0 gs fr := by
  have hg' : ∀ g ∈ gs, ∀ c ∈ g, esDigito c = true := fun g hgm => (hg g hgm).2
  obtain ⟨d, D', hD⟩ : ∃ d D', g0 ++ juntaGrupos gs = d :: D' := by
    cases h : g0 ++ juntaGrupos gs with
    | nil =>
      exfalso
      rcases List.append_eq_nil.mp h with ⟨h1, _⟩
      rw [h1] at hlen
      simp at hlen
    | cons d D' => exact ⟨d, D', rfl⟩
  have hdd : ∀ c ∈ d :: D', esDigito c = true := by
    rw [← hD]
    intro c hc
    rcases List.mem_append.mp hc with h1 | h2
    · exact h0 c h1
    · exact junta_digitos hg' c h2
  rw [convertir_numero_eq_getD, transformaPy_locale g0 gs fr h0 hg' hf, hD,
    pyFloatDe_digitos_punto d D' fr hdd hf, Option.getD_some, ← hD]
  unfold valorLocale
  rw [Rat.divInt_eq_div]
  simp only [Int.ofNat_eq_natCast]
  push_cast
  field_simp

/-- Witness for C3 at the concrete input `"1.234,56"`. -/
theorem C3_convertir_numero_locale_witness :
    convertir_numero "1.234,56" = valorLocale ['1'] [['2', '3', '4']] ['5', '6'] := by
  have h := C3_convertir_numero_locale ['1'] [['2', '3', '4']] ['5', '6']
    (by decide) (by decide) (by decide) (by decide) (by decide)
  rw [show ("1.234,56" : String) =
    ⟨['1'] ++ pegaGrupos [['2', '3', '4']] ++ ',' :: ['5', '6']⟩ from by decide]
  exact h

/-! ### C9: the metadata mapping -/

lemma claves_pon_presente (m : List (String × Meta)) (k : String) (v : Meta)
    (h : m.any (fun e => e.1 = k) = true) :
    (ponDict m k v).map (fun e => e.1) = m.map (fun e => e.1) := by
  unfold ponDict
  rw [if_pos h, List.map_map]
  apply List.map_congr_left
  intro e _
  by_cases he : e.1 = k
  · simp [he]
  · simp [he]

lemma claves_pon_ausente (m : List (String × Meta)) (k : String) (v : Meta)
    (h : ¬ m.any (fun e => e.1 = k) = true) :
    (ponDict m k v).map (fun e => e.1) = m.map (fun e => e.1) ++ [k] := by
  unfold ponDict
  rw [if_neg h, List.map_append]
  rfl

lemma find?_actualiza_mismo (m : List (String × Meta)) (k : String) (v : Meta)
    (h : m.any (fun e => e.1 = k) = true) :
    (m.map (fun e => if e.1 = k then (k, v) else e)).find?
      (fun e => e.1 = k) = some (k, v) := by
  induction m with
  | nil => cases h
  | cons e t ih =>
    by_cases he : e.1 = k
    · rw [List.map_cons, if_pos he]
      simp [List.find?]
    · have ht : t.any (fun x => x.1 = k) = true := by
        rcases List.any_eq_true.mp h with ⟨x, hx, hxk⟩
        rcases List.mem_cons.mp hx with e1 | e2
        · rw [e1] at hxk
          exact absurd (of_decide_eq_true hxk) he
        · exact List.any_eq_true.mpr ⟨x, e2, hxk⟩
      rw [List.map_cons, if_neg he]
      simp only [List.find?, decide_eq_false he]
      exact ih ht

lemma find?_actualiza_otro (m : List (String × Meta)) (k : String) (v : Meta)
    (k' : String) (h : ¬ k' = k) :
    (m.map (fun e => if e.1 = k then (k, v) else e)).find?
      (fun e => e.1 = k') = m.find? (fun e => e.1 = k') := by
  induction m with
  | nil => rfl
  | cons e t ih =>
    by_cases he : e.1 = k
    · have h1 : (decide ((k, v).1 = k')) = false :=
        decide_eq_false (fun e2 => h e2.symm)
      have h2 : (decide (e.1 = k')) = false :=
        decide_eq_false (fun e2 => h (e2 ▸ he))
      rw [List.map_cons, if_pos he]
      simp only [List.find?, h1, h2]
      exact ih
    · rw [List.map_cons, if_neg he]
      by_cases hk' : e.1 = k'
      · simp [List.find?, hk']
      · simp only [List.find?, decide_eq_false hk']
        exact ih

lemma find?_append_uno {α : Type} (p : α → Bool) (l : List α) (x : α)
    (hx : p x = false) : (l ++ [x]).find? p = l.find? p := by
  induction l with
  | nil => simp [List.find?, hx]
  | cons a t ih =>
    rw [List.cons_append]
    simp only [List.find?]
    cases p a
    · exact ih
    · rfl

lemma find?_ninguno (m : List (String × Meta)) (k : String)
    (hm : ¬ m.any (fun e => e.1 = k) = true) :
    m.find? (fun e => e.1 = k) = none := by
  rw [List.find?_eq_none]
  intro e hme hp
  exact hm (List.any_eq_true.mpr ⟨e, hme, hp⟩)

lemma find?_append_izq_ninguno {α : Type} (p : α → Bool) (l1 l2 : List α)
    (h : l1.find? p = none) : (l1 ++ l2).find? p = l2.find? p := by
  induction l1 with
  | nil => rfl
  | cons a t ih =>
    rw [List.cons_append]
    cases hpa : p a with
    | true =>
      exfalso
      simp only [List.find?, hpa] at h
      exact Option.noConfusion h
    | false =>
      simp only [List.find?, hpa] at h ⊢
      exact ih h

lemma buscaDict_pon_mismo (m : List (String × Meta)) (k : String) (v : Meta) :
    buscaDict (ponDict m k v) k = some v := by
  unfold ponDict buscaDict
  by_cases hm : m.any (fun e => e.1 = k) = true
  · rw [if_pos hm, find?_actualiza_mismo m k v hm]
    rfl
  · rw [if_neg hm, find?_append_izq_ninguno _ _ _ (find?_ninguno m k hm)]
    simp [List.find?]

lemma buscaDict_pon_otro (m : List (String × Meta)) (k : String) (v : Meta)
    (k' : String) (h : ¬ k' = k) :
    buscaDict (ponDict m k v) k' = buscaDict m k' := by
  unfold ponDict buscaDict
  by_cases hm : m.any (fun e => e.1 = k) = true
  · rw [if_pos hm, find?_actualiza_otro m k v k' h]
  · rw [if_neg hm,
      find?_append_uno (fun e => decide (e.1 = k')) m (k, v)
        (decide_eq_false (fun e2 => h e2.symm))]

lemma busca_foldl (bs : List Bloque) :
    ∀ (m : List (String × Meta)) (k : String),
      buscaDict (bs.foldl (fun m b => ponDict m b.codigo (metaDe b)) m) k =
        (match ultimaMeta bs k with
         | some v => some v
         | none => buscaDict m k) := by
  induction bs with
  | nil => intro m k; rfl
  | cons b t ih =>
    intro m k
    rw [List.foldl_cons, ih (ponDict m b.codigo (metaDe b)) k]
    cases hu : ultimaMeta t k with
    | some w => simp [ultimaMeta, hu]
    | none =>
      simp only [ultimaMeta, hu]
      by_cases hbk : b.codigo = k
      · subst hbk
        rw [if_pos rfl]
        exact buscaDict_pon_mismo m b.codigo (metaDe b)
      · rw [if_neg hbk,
          buscaDict_pon_otro m b.codigo (metaDe b) k (fun e => hbk e.symm)]

lemma contains_claves (m : List (String × Meta)) (k : String) :
    (m.map (fun e => e.1)).contains k = m.any (fun e => e.1 = k) := by
  induction m with
  | nil => rfl
  | cons e t ih =>
    rw [List.map_cons, List.contains_cons, List.any_cons, ih]
    have hbe : (k == e.1) = decide (e.1 = k) := by
      by_cases hk : e.1 = k
      · subst hk
        simp
      · rw [beq_eq_false_iff_ne.mpr (fun h => hk h.symm), decide_eq_false hk]
    rw [hbe]

lemma claves_foldl (bs : List Bloque) :
    ∀ m : List (String × Meta),
      (bs.foldl (fun m b => ponDict m b.codigo (metaDe b)) m).map (fun e => e.1) =
        m.map (fun e => e.1) ++
          primerasAux (m.map (fun e => e.1)) (bs.map (fun b => b.codigo)) := by
  induction bs with
  | nil => intro m; simp [primerasAux]
  | cons b t ih =>
    intro m
    rw [List.foldl_cons, List.map_cons, ih (ponDict m b.codigo (metaDe b))]
    by_cases hm : m.any (fun e => e.1 = b.codigo) = true
    · have hcont : (m.map (fun e => e.1)).contains b.codigo = true := by
        rw [contains_claves]; exact hm
      rw [claves_pon_presente m b.codigo (metaDe b) hm]
      simp only [primerasAux, hcont, if_true]
    · have hcont : (m.map (fun e => e.1)).contains b.codigo = false := by
        rw [contains_claves]
        exact Bool.not_eq_true _ ▸ (Bool.of_not_eq_true hm)
      rw [claves_pon_ausente m b.codigo (metaDe b) hm]
      simp only [primerasAux, hcont, Bool.false_eq_true, if_false,
        List.append_assoc, List.singleton_append]

/-- C9: when the measurements region contains several blocks with the same
code, the metadata mapping holds the description and unit of the last
occurrence ("later matches silently overwrite earlier entries"), and
insertion order of distinct codes follows order of appearance.
`bloqueMatches` lists matches in ascending text position by construction
of `buscaDesde`, so list order here is text order; the third conjunct
exercises a duplicate code end to end. -/
theorem C9_mapa_ultima_aparicion :
    (∀ (bs : List Bloque) (k : String),
        buscaDict (buildMapa bs) k = ultimaMeta bs k) ∧
    (∀ bs : List Bloque,
        (buildMapa bs).map (fun e => e.1) =
          primerasApariciones (bs.map (fun b => b.codigo))) ∧
    buscaDict (buildMapa (bloqueMatches
        "10.01.01 ud Uno\n10.01.01 m2 Dos")) "10.01.01" =
      some ⟨"Dos", "M2"⟩ := by
  refine ⟨fun bs k => ?_, fun bs => ?_, by decide⟩
  · unfold buildMapa
    rw [busca_foldl bs [] k]
    cases ultimaMeta bs k <;> rfl
  · unfold buildMapa primerasApariciones
    rw [claves_foldl bs []]
    rfl

/-! ### C5: reconciliation fallback -/

/-- C5: for every matched budget-table row, if the row's code is a key of
the metadata mapping the emitted item carries exactly the mapping's
description and unit; otherwise it carries the row's own captured short
description and the literal default unit `"UD"`; and the loop emits
exactly one item per row, in row order. -/
theorem C5_reconcilia_fallback :
    (∀ (mapa : List (String × Meta)) (f : Fila) (v : Meta),
        buscaDict mapa f.codigo = some v →
        (mkPartida mapa f).descripcion = v.descripcion ∧
          (mkPartida mapa f).unidad = v.unidad) ∧
    (∀ (mapa : List (String × Meta)) (f : Fila),
        buscaDict mapa f.codigo = none →
        (mkPartida mapa f).descripcion = f.descCorta ∧
          (mkPartida mapa f).unidad = "UD") ∧
    (∀ (mapa : List (String × Meta)) (rows : List Fila) (i : ℕ)
        (h : i < rows.length),
        (reconcileRows mapa rows)[i]? = some (mkPartida mapa rows[i])) := by
  refine ⟨fun mapa f v hv => ?_, fun mapa f hv => ?_, fun mapa rows i h => ?_⟩
  · unfold mkPartida
    rw [hv]
    exact ⟨rfl, rfl⟩
  · unfold mkPartida
    rw [hv]
    exact ⟨rfl, rfl⟩
  · unfold reconcileRows
    rw [List.getElem?_map, List.getElem?_eq_getElem h]
    rfl

/-- Witness for C5 at a concrete mapping and row: a mapped code takes the
mapping's description and unit, an unmapped one falls back to the row's
short text and `"UD"`. -/
theorem C5_reconcilia_fallback_witness :
    ((mkPartida [("10.01.01", ⟨"Larga", "M2"⟩)]
        ⟨"10.01.01", "CORTA", "1,0", "2,0", "3,0"⟩).descripcion = "Larga" ∧
      (mkPartida [("10.01.01", ⟨"Larga", "M2"⟩)]
        ⟨"10.01.01", "CORTA", "1,0", "2,0", "3,0"⟩).unidad = "M2") ∧
    ((mkPartida [] ⟨"10.01.01", "CORTA", "1,0", "2,0", "3,0"⟩).descripcion =
        "CORTA" ∧
      (mkPartida [] ⟨"10.01.01", "CORTA", "1,0", "2,0", "3,0"⟩).unidad = "UD") :=
  ⟨C5_reconcilia_fallback.1 [("10.01.01", ⟨"Larga", "M2"⟩)]
      ⟨"10.01.01", "CORTA", "1,0", "2,0", "3,0"⟩ ⟨"Larga", "M2"⟩ (by decide),
   C5_reconcilia_fallback.2.1 []
      ⟨"10.01.01", "CORTA", "1,0", "2,0", "3,0"⟩ (by decide)⟩

/-! ### C2: empty extraction is the one fatal case -/

lemma pandasNatSort_ok_largo {ps l : List Partida}
    (h : pandasNatSort ps = Resultado.ok l) : l.length = ps.length := by
  unfold pandasNatSort at h
  by_cases hk : anchoColumnas ps < 3
  · rw [if_pos hk] at h
    cases h
  · rw [if_neg hk] at h
    cases h
    exact List.length_insertionSort _ _

lemma pandasNatSort_fallo_msg {ps : List Partida} {m : String}
    (h : pandasNatSort ps = Resultado.fallo m) :
    m = "KeyError: columna de segmento inexistente" := by
  unfold pandasNatSort at h
  by_cases hk : anchoColumnas ps < 3
  · rw [if_pos hk] at h
    cases h
    rfl
  · rw [if_neg hk] at h
    cases h

/-- C2: if the budget-table region yields zero matched rows,
`procesar_pdf` raises the fatal, descriptive `ValueError` of
extractor.py:97 (its message names the likely cause: check the page range
and the patterns), and this happens exactly when there are zero matched
rows — an empty metadata mapping from the measurements pass never causes
it, since the equivalence holds for every measurements text.  A success
result is never empty. -/
theorem C2_extraccion_vacia_falla :
    (∀ tm tp : String,
        procesar_pdf_core tm tp = Resultado.fallo msgVacio ↔
          filaMatches tp = []) ∧
    (∀ (tm tp : String) (l : List Partida),
        procesar_pdf_core tm tp = Resultado.ok l → l ≠ []) := by
  constructor
  · intro tm tp
    unfold procesar_pdf_core
    cases hr : reconcileRows (buildMapa (bloqueMatches tm)) (filaMatches tp) with
    | nil =>
      unfold reconcileRows at hr
      exact ⟨fun _ => List.map_eq_nil_iff.mp hr, fun _ => rfl⟩
    | cons p ps =>
      constructor
      · intro hf
        exact absurd (pandasNatSort_fallo_msg hf) (by decide)
      · intro hf
        unfold reconcileRows at hr
        rw [hf] at hr
        cases hr
  · intro tm tp l h
    unfold procesar_pdf_core at h
    cases hr : reconcileRows (buildMapa (bloqueMatches tm)) (filaMatches tp) with
    | nil =>
      rw [hr] at h
      cases h
    | cons p ps =>
      rw [hr] at h
      intro hl
      have hlen := pandasNatSort_ok_largo h
      rw [hl] at hlen
      simp at hlen

/-- Witness for C2: a one-row budget table with an empty measurements
text (hence an empty metadata mapping) succeeds with a nonempty result. -/
theorem C2_extraccion_vacia_falla_witness :
    procesar_pdf_core "" "10.01.01 DESC 10,00 100,00 1.000,00" =
        Resultado.ok [⟨"10.01.01", "DESC", "UD", 10, 100, 1000⟩] ∧
      ([⟨"10.01.01", "DESC", "UD", 10, 100, 1000⟩] : List Partida) ≠ [] ∧
      buildMapa (bloqueMatches "") = [] :=
  ⟨by decide,
   C2_extraccion_vacia_falla.2 "" "10.01.01 DESC 10,00 100,00 1.000,00" _
     (by decide),
   by decide⟩

/-! ### C4: the natural sort -/

lemma optMenorIg_total (a b : Option ℤ) :
    optMenorIg a b = true ∨ optMenorIg b a = true := by
  cases a <;> cases b <;> simp [optMenorIg] <;> omega

lemma optMenorIg_trans {a b c : Option ℤ} (h1 : optMenorIg a b = true)
    (h2 : optMenorIg b c = true) : optMenorIg a c = true := by
  cases a <;> cases b <;> cases c <;> simp_all [optMenorIg] <;> omega

lemma optMenorIg_antisym {a b : Option ℤ} (h1 : optMenorIg a b = true)
    (h2 : optMenorIg b a = true) : a = b := by
  cases a <;> cases b <;> simp_all [optMenorIg] <;> omega

lemma claveMenorIg_total (x y : Option ℤ × Option ℤ × Option ℤ) :
    claveMenorIg x y = true ∨ claveMenorIg y x = true := by
  unfold claveMenorIg
  by_cases h1 : x.1 = y.1
  · rw [if_pos h1, if_pos h1.symm]
    by_cases h2 : x.2.1 = y.2.1
    · rw [if_pos h2, if_pos h2.symm]
      exact optMenorIg_total _ _
    · rw [if_neg h2, if_neg (fun e => h2 e.symm)]
      exact optMenorIg_total _ _
  · rw [if_neg h1, if_neg (fun e => h1 e.symm)]
    exact optMenorIg_total _ _

lemma claveMenorIg_refl (x : Option ℤ × Option ℤ × Option ℤ) :
    claveMenorIg x x = true := by
  rcases claveMenorIg_total x x with h | h <;> exact h

lemma claveMenorIg_trans {x y z : Option ℤ × Option ℤ × Option ℤ}
    (h1 : claveMenorIg x y = true) (h2 : claveMenorIg y z = true) :
    claveMenorIg x z = true := by
  unfold claveMenorIg at h1 h2 ⊢
  by_cases e1 : x.1 = y.1 <;> by_cases e2 : y.1 = z.1
  · rw [if_pos e1] at h1
    rw [if_pos e2] at h2
    rw [if_pos (e1.trans e2)]
    by_cases f1 : x.2.1 = y.2.1 <;> by_cases f2 : y.2.1 = z.2.1
    · rw [if_pos f1] at h1
      rw [if_pos f2] at h2
      rw [if_pos (f1.trans f2)]
      exact optMenorIg_trans h1 h2
    · rw [if_pos f1] at h1
      rw [if_neg f2] at h2
      rw [if_neg (fun e => f2 (f1 ▸ e)), f1]
      exact h2
    · rw [if_neg f1] at h1
      rw [if_pos f2] at h2
      rw [if_neg (fun e => f1 (e.trans f2.symm)), ← f2]
      exact h1
    · rw [if_neg f1] at h1
      rw [if_neg f2] at h2
      have hne : ¬ x.2.1 = z.2.1 := by
        intro e
        rw [← e] at h2
        exact f1 (optMenorIg_antisym h1 h2)
      rw [if_neg hne]
      exact optMenorIg_trans h1 h2
  · rw [if_pos e1] at h1
    rw [if_neg e2] at h2
    rw [if_neg (fun e => e2 (e1 ▸ e)), e1]
    exact h2
  · rw [if_neg e1] at h1
    rw [if_pos e2] at h2
    rw [if_neg (fun e => e1 (e.trans e2.symm)), ← e2]
    exact h1
  · rw [if_neg e1] at h1
    rw [if_neg e2] at h2
    have hne : ¬ x.1 = z.1 := by
      intro e
      rw [← e] at h2
      exact e1 (optMenorIg_antisym h1 h2)
    rw [if_neg hne]
    exact optMenorIg_trans h1 h2

instance : IsTotal Partida ordenPandas :=
  ⟨fun a b => claveMenorIg_total (claveDe a) (claveDe b)⟩

instance : IsTrans Partida ordenPandas :=
  ⟨fun _ _ _ h1 h2 => claveMenorIg_trans h1 h2⟩

lemma pairwise_filter_clave (k : Option ℤ × Option ℤ × Option ℤ)
    (l : List Partida) :
    (l.filter (fun x => claveDe x = k)).Pairwise ordenPandas := by
  have h : ∀ a ∈ l.filter (fun x => claveDe x = k),
      ∀ b ∈ l.filter (fun x => claveDe x = k), ordenPandas a b := by
    intro a ha b hb
    have hak : claveDe a = k := of_decide_eq_true (List.mem_filter.mp ha).2
    have hbk : claveDe b = k := of_decide_eq_true (List.mem_filter.mp hb).2
    unfold ordenPandas
    rw [hak, hbk]
    exact claveMenorIg_refl k
  exact List.pairwise_of_forall_mem_list h

/-- Stability of the sort: rows with equal sort keys keep their original
relative order — the filter on any fixed key is unchanged. -/
lemma insertionSort_filter_clave (l : List Partida)
    (k : Option ℤ × Option ℤ × Option ℤ) :
    (List.insertionSort ordenPandas l).filter (fun x => claveDe x = k) =
      l.filter (fun x => claveDe x = k) := by
  have h1 : (l.filter (fun x => claveDe x = k)).filter
      (fun x => claveDe x = k) = l.filter (fun x => claveDe x = k) := by
    rw [List.filter_filter]
    exact List.filter_congr (fun a _ => by rw [Bool.and_self])
  have hsub : List.Sublist (l.filter (fun x => claveDe x = k))
      (List.insertionSort ordenPandas l) :=
    List.sublist_insertionSort (pairwise_filter_clave k l) (List.filter_sublist l)
  have hsub2 : List.Sublist (l.filter (fun x => claveDe x = k))
      ((List.insertionSort ordenPandas l).filter (fun x => claveDe x = k)) := by
    have := hsub.filter (fun x => claveDe x = k)
    rwa [h1] at this
  have hperm : List.Perm
      ((List.insertionSort ordenPandas l).filter (fun x => claveDe x = k))
      (l.filter (fun x => claveDe x = k)) :=
    (List.perm_insertionSort ordenPandas l).filter _
  exact (hsub2.eq_of_length hperm.length_eq.symm).symm

/-- C4 (amended): the natural sort orders the reconciled items ascending
by the first three dot segments of the code compared as numbers — stably,
with missing segments filled with `'0'` — but a segment that fails to
parse is coerced to `NaN` and sorts after every numeric value (not as
`0`), and when no code has at least three segments the column access
raises a `KeyError` (instead of never raising). -/
theorem C4_orden_natural_amended :
    (∀ (ps l : List Partida), pandasNatSort ps = Resultado.ok l →
        List.Sorted ordenPandas l ∧
        (∀ k, l.filter (fun x => claveDe x = k) =
          ps.filter (fun x => claveDe x = k)) ∧
        l.length = ps.length) ∧
    (∀ ps : List Partida, anchoColumnas ps < 3 →
        pandasNatSort ps = Resultado.fallo
          "KeyError: columna de segmento inexistente") ∧
    pandasNatSort
        [⟨"9.9.9", "", "", 0, 0, 0⟩, ⟨"10.1.1", "", "", 0, 0, 0⟩,
         ⟨"10.2.1", "", "", 0, 0, 0⟩, ⟨"2.1.1", "", "", 0, 0, 0⟩] =
      Resultado.ok
        [⟨"2.1.1", "", "", 0, 0, 0⟩, ⟨"9.9.9", "", "", 0, 0, 0⟩,
         ⟨"10.1.1", "", "", 0, 0, 0⟩, ⟨"10.2.1", "", "", 0, 0, 0⟩] := by
  refine ⟨fun ps l h => ?_, fun ps h => ?_, by decide⟩
  · unfold pandasNatSort at h
    by_cases hk : anchoColumnas ps < 3
    · rw [if_pos hk] at h
      cases h
    · rw [if_neg hk] at h
      cases h
      exact ⟨List.sorted_insertionSort ordenPandas ps,
        fun k => insertionSort_filter_clave ps k,
        List.length_insertionSort _ _⟩
  · unfold pandasNatSort
    rw [if_pos h]

/-- Witness for the amended C4 at the spec's own example codes. -/
theorem C4_orden_natural_amended_witness :
    pandasNatSort
        [⟨"9.9.9", "", "", 0, 0, 0⟩, ⟨"10.1.1", "", "", 0, 0, 0⟩,
         ⟨"10.2.1", "", "", 0, 0, 0⟩, ⟨"2.1.1", "", "", 0, 0, 0⟩] =
      Resultado.ok
        [⟨"2.1.1", "", "", 0, 0, 0⟩, ⟨"9.9.9", "", "", 0, 0, 0⟩,
         ⟨"10.1.1", "", "", 0, 0, 0⟩, ⟨"10.2.1", "", "", 0, 0, 0⟩] ∧
    List.Sorted ordenPandas
        [⟨"2.1.1", "", "", 0, 0, 0⟩, ⟨"9.9.9", "", "", 0, 0, 0⟩,
         ⟨"10.1.1", "", "", 0, 0, 0⟩, ⟨"10.2.1", "", "", 0, 0, 0⟩] :=
  ⟨by decide,
   (C4_orden_natural_amended.1
     [⟨"9.9.9", "", "", 0, 0, 0⟩, ⟨"10.1.1", "", "", 0, 0, 0⟩,
      ⟨"10.2.1", "", "", 0, 0, 0⟩, ⟨"2.1.1", "", "", 0, 0, 0⟩]
     [⟨"2.1.1", "", "", 0, 0, 0⟩, ⟨"9.9.9", "", "", 0, 0, 0⟩,
      ⟨"10.1.1", "", "", 0, 0, 0⟩, ⟨"10.2.1", "", "", 0, 0, 0⟩]
     (by decide)).1⟩

/-- C4 counterexample: at codes `00.01.0x` (third segment non-numeric)
and `00.01.99`, the code sorts the unparseable segment last (`NaN`), while
the claim's reading — unparseable segments sort as 0, via `ordenReclamo` —
puts it first; and on a list whose codes all have two segments the code
raises instead of never raising. -/
theorem C4_orden_natural_counterexample :
    pandasNatSort
        [⟨"00.01.0x", "", "", 0, 0, 0⟩, ⟨"00.01.99", "", "", 0, 0, 0⟩] =
      Resultado.ok
        [⟨"00.01.99", "", "", 0, 0, 0⟩, ⟨"00.01.0x", "", "", 0, 0, 0⟩] ∧
    List.insertionSort ordenReclamo
        [⟨"00.01.0x", "", "", 0, 0, 0⟩, ⟨"00.01.99", "", "", 0, 0, 0⟩] =
      [⟨"00.01.0x", "", "", 0, 0, 0⟩, ⟨"00.01.99", "", "", 0, 0, 0⟩] ∧
    ([⟨"00.01.99", "", "", 0, 0, 0⟩, ⟨"00.01.0x", "", "", 0, 0, 0⟩] :
        List Partida) ≠
      [⟨"00.01.0x", "", "", 0, 0, 0⟩, ⟨"00.01.99", "", "", 0, 0, 0⟩] ∧
    pandasNatSort [⟨"10.01", "", "", 0, 0, 0⟩] =
      Resultado.fallo "KeyError: columna de segmento inexistente" :=
  ⟨by decide, by decide, by decide, by decide⟩

/-! ### C6: the code shape -/

lemma toma_larga_append {α : Type} (l r : List α) : (l ++ r).take l.length = l := by
  induction l with
  | nil => rfl
  | cons a t ih => simp [List.take_succ_cons, ih]

lemma gota_larga_append {α : Type} (l r : List α) : (l ++ r).drop l.length = r := by
  induction l with
  | nil => rfl
  | cons a t ih => simpa using ih

lemma get?_larga_append {α : Type} (l : List α) (x : α) (r : List α) :
    (l ++ x :: r).get? l.length = some x := by
  induction l with
  | nil => rfl
  | cons a t ih => simpa using ih

lemma gota_tras_append {α : Type} (l : List α) (x : α) (r : List α) :
    (l ++ x :: r).drop (l.length + 1) = r := by
  induction l with
  | nil => rfl
  | cons a t ih => simpa using ih

lemma drop_of_get? {α : Type} :
    ∀ (n : ℕ) (l : List α) (x : α), l.get? n = some x →
      l.drop n = x :: l.drop (n + 1)
  | 0, [], _, h => by cases h
  | 0, a :: t, x, h => by
    simp only [List.get?] at h
    cases h
    rfl
  | n + 1, [], _, h => by cases h
  | n + 1, a :: t, x, h => by
    simp only [List.get?] at h
    simpa using drop_of_get? n t x h

lemma cifrasExactas_iff {k : ℕ} {l : List Char} :
    cifrasExactas k l = true ↔
      (l.take k).length = k ∧ ∀ x ∈ l.take k, esDigito x = true := by
  unfold cifrasExactas
  rw [Bool.and_eq_true, decide_eq_true_eq, List.all_eq_true]

/-- Facts extracted from a candidate match length of the code
sub-pattern. -/
lemma finalesCodigoDesde_mem {a n : ℕ} {l : List Char}
    (h : n ∈ finalesCodigoDesde a l) :
    cifrasExactas a l = true ∧ l.get? a = some '.' ∧
      cifrasExactas 2 (l.drop (a + 1)) = true ∧
      (l.drop (a + 1)).get? 2 = some '.' ∧
      ∃ c, (c = 3 ∨ c = 2) ∧ cifrasExactas c (l.drop (a + 4)) = true ∧
        n = a + 4 + c := by
  unfold finalesCodigoDesde at h
  split at h
  case isFalse => cases h
  case isTrue h1 =>
    rw [Bool.and_eq_true, decide_eq_true_eq] at h1
    split at h
    case isFalse => cases h
    case isTrue h2 =>
      rw [Bool.and_eq_true, decide_eq_true_eq] at h2
      refine ⟨h1.1, h1.2, h2.1, h2.2, ?_⟩
      rcases List.mem_append.mp h with h3 | h3
      · split at h3
        case isTrue h4 =>
          rcases List.mem_singleton.mp h3 with rfl
          exact ⟨3, Or.inl rfl, h4, rfl⟩
        case isFalse => cases h3
      · split at h3
        case isTrue h4 =>
          rcases List.mem_singleton.mp h3 with rfl
          exact ⟨2, Or.inr rfl, h4, rfl⟩
        case isFalse => cases h3

/-- A candidate match condition set yields the structural decomposition. -/
lemma descomposicion_codigo {l : List Char} {a c : ℕ}
    (h1 : cifrasExactas a l = true) (h2 : l.get? a = some '.')
    (h3 : cifrasExactas 2 (l.drop (a + 1)) = true)
    (h4 : (l.drop (a + 1)).get? 2 = some '.')
    (h5 : cifrasExactas c (l.drop (a + 4)) = true)
    (hn : l.length = a + 4 + c) :
    ∃ A B C : List Char, l = A ++ ('.' :: (B ++ ('.' :: C))) ∧
      (∀ x ∈ A, esDigito x = true) ∧ (∀ x ∈ B, esDigito x = true) ∧
      (∀ x ∈ C, esDigito x = true) ∧
      A.length = a ∧ B.length = 2 ∧ C.length = c := by
  obtain ⟨h1l, h1d⟩ := cifrasExactas_iff.mp h1
  obtain ⟨h3l, h3d⟩ := cifrasExactas_iff.mp h3
  obtain ⟨h5l, h5d⟩ := cifrasExactas_iff.mp h5
  have hdrop1 : l.drop a = '.' :: l.drop (a + 1) := drop_of_get? a l '.' h2
  have hdrop3 : l.drop (a + 3) = '.' :: l.drop (a + 4) := by
    have e1 : (l.drop (a + 1)).drop 2 = l.drop (a + 3) := by
      rw [List.drop_drop]
    have e2 : (l.drop (a + 1)).drop 3 = l.drop (a + 4) := by
      rw [List.drop_drop]
    rw [← e1, ← e2]
    exact drop_of_get? 2 (l.drop (a + 1)) '.' h4
  have hsplit2 : l.drop (a + 1) =
      (l.drop (a + 1)).take 2 ++ '.' :: l.drop (a + 4) := by
    conv_lhs => rw [← List.take_append_drop 2 (l.drop (a + 1))]
    rw [show (l.drop (a + 1)).drop 2 = l.drop (a + 3) from by rw [List.drop_drop],
      hdrop3]
  have hClen : (l.drop (a + 4)).length = c := by
    rw [List.length_drop, hn]
    omega
  have hCtake : (l.drop (a + 4)).take c = l.drop (a + 4) := by
    rw [← hClen, List.take_length]
  refine ⟨l.take a, (l.drop (a + 1)).take 2, l.drop (a + 4), ?_, h1d, h3d, ?_,
    h1l, h3l, hClen⟩
  · conv_lhs => rw [← List.take_append_drop a l, hdrop1, hsplit2]
  · intro x hx
    rw [← hCtake] at hx
    exact h5d x hx

/-- The converse: a structural decomposition puts the string's length
among the candidate match lengths. -/
lemma mem_finalesCodigoDesde {A B C : List Char}
    (hA : ∀ x ∈ A, esDigito x = true) (hB : ∀ x ∈ B, esDigito x = true)
    (hC : ∀ x ∈ C, esDigito x = true)
    (hbl : B.length = 2) (hcl : C.length = 2 ∨ C.length = 3) :
    (A ++ ('.' :: (B ++ ('.' :: C)))).length ∈
      finalesCodigoDesde A.length (A ++ ('.' :: (B ++ ('.' :: C)))) := by
  have hcif1 : cifrasExactas A.length (A ++ ('.' :: (B ++ ('.' :: C)))) = true := by
    rw [cifrasExactas_iff, toma_larga_append]
    exact ⟨rfl, hA⟩
  have hget1 : (A ++ ('.' :: (B ++ ('.' :: C)))).get? A.length = some '.' :=
    get?_larga_append A '.' (B ++ ('.' :: C))
  have hdrop1 : (A ++ ('.' :: (B ++ ('.' :: C)))).drop (A.length + 1) =
      B ++ ('.' :: C) := gota_tras_append A '.' (B ++ ('.' :: C))
  have hcif2 : cifrasExactas 2 ((A ++ ('.' :: (B ++ ('.' :: C)))).drop
      (A.length + 1)) = true := by
    rw [hdrop1, ← hbl, cifrasExactas_iff, toma_larga_append]
    exact ⟨rfl, hB⟩
  have hget2 : ((A ++ ('.' :: (B ++ ('.' :: C)))).drop (A.length + 1)).get? 2 =
      some '.' := by
    rw [hdrop1, ← hbl]
    exact get?_larga_append B '.' C
  have hdrop4 : (A ++ ('.' :: (B ++ ('.' :: C)))).drop (A.length + 4) = C := by
    have e1 : (A ++ ('.' :: (B ++ ('.' :: C)))).drop (A.length + 4) =
        ((A ++ ('.' :: (B ++ ('.' :: C)))).drop (A.length + 1)).drop 3 := by
      rw [List.drop_drop]
    rw [e1, hdrop1, show (3 : ℕ) = B.length + 1 from by omega]
    exact gota_tras_append B '.' C
  have hlen : (A ++ ('.' :: (B ++ ('.' :: C)))).length =
      A.length + 4 + C.length := by
    simp [List.length_append]
    omega
  unfold finalesCodigoDesde
  rw [if_pos (by rw [Bool.and_eq_true, decide_eq_true_eq]; exact ⟨hcif1, hget1⟩),
    if_pos (by rw [Bool.and_eq_true, decide_eq_true_eq]; exact ⟨hcif2, hget2⟩),
    hdrop4, hlen]
  rcases hcl with hc2 | hc3
  · have hno3 : cifrasExactas 3 C = false := by
      cases hcc : cifrasExactas 3 C with
      | false => rfl
      | true =>
        exfalso
        have h33 := (cifrasExactas_iff.mp hcc).1
        rw [List.length_take] at h33
        omega
    have hyes2 : cifrasExactas 2 C = true := by
      rw [cifrasExactas_iff, ← hc2, List.take_length]
      exact ⟨rfl, hC⟩
    rw [hno3, hyes2]
    simp only [Bool.false_eq_true, if_false, if_true, List.nil_append,
      List.mem_singleton]
    omega
  · have hyes3 : cifrasExactas 3 C = true := by
      rw [cifrasExactas_iff, ← hc3, List.take_length]
      exact ⟨rfl, hC⟩
    rw [hyes3]
    simp only [if_true]
    apply List.mem_append.mpr
    left
    rw [List.mem_singleton]
    omega

/-- C6 (amended): a line-item code recognized by both extraction passes is
any string of exactly three dot-separated digit segments whose first
segment has 2-3 digits, second exactly 2 digits, and third 2-3 digits;
two-segment strings such as `"10.01"` are rejected. -/
theorem C6_codigo_forma_amended (s : String) :
    matchesCodigo s = true ↔
      ∃ A B C : List Char,
        s.data = A ++ ('.' :: (B ++ ('.' :: C))) ∧
        (∀ x ∈ A, esDigito x = true) ∧ (∀ x ∈ B, esDigito x = true) ∧
        (∀ x ∈ C, esDigito x = true) ∧
        (A.length = 2 ∨ A.length = 3) ∧ B.length = 2 ∧
        (C.length = 2 ∨ C.length = 3) := by
  constructor
  · intro h
    have hmem : s.data.length ∈ finalesCodigo s.data := of_decide_eq_true h
    unfold finalesCodigo at hmem
    rcases List.mem_append.mp hmem with hma | hma
    · obtain ⟨h1, h2, h3, h4, c, hc, h5, hn⟩ := finalesCodigoDesde_mem hma
      obtain ⟨A, B, C, hl, hA, hB, hC, hal, hbl, hclen⟩ :=
        descomposicion_codigo h1 h2 h3 h4 h5 hn
      exact ⟨A, B, C, hl, hA, hB, hC, Or.inr hal, hbl, by
        rcases hc with e | e
        · exact Or.inr (hclen.trans e)
        · exact Or.inl (hclen.trans e)⟩
    · obtain ⟨h1, h2, h3, h4, c, hc, h5, hn⟩ := finalesCodigoDesde_mem hma
      obtain ⟨A, B, C, hl, hA, hB, hC, hal, hbl, hclen⟩ :=
        descomposicion_codigo h1 h2 h3 h4 h5 hn
      exact ⟨A, B, C, hl, hA, hB, hC, Or.inl hal, hbl, by
        rcases hc with e | e
        · exact Or.inr (hclen.trans e)
        · exact Or.inl (hclen.trans e)⟩
  · rintro ⟨A, B, C, hl, hA, hB, hC, hal, hbl, hcl⟩
    apply decide_eq_true
    rw [hl]
    unfold finalesCodigo
    have hmem := mem_finalesCodigoDesde hA hB hC hbl hcl
    rcases hal with h2 | h3
    · apply List.mem_append.mpr
      right
      rw [← h2]
      exact hmem
    · apply List.mem_append.mpr
      left
      rw [← h3]
      exact hmem

/-- Witness for the amended C6 at the concrete code `"10.01.02"`. -/
theorem C6_codigo_forma_amended_witness :
    matchesCodigo "10.01.02" = true ∧
      ∃ A B C : List Char,
        "10.01.02".data = A ++ ('.' :: (B ++ ('.' :: C))) ∧
        (∀ x ∈ A, esDigito x = true) ∧ (∀ x ∈ B, esDigito x = true) ∧
        (∀ x ∈ C, esDigito x = true) ∧
        (A.length = 2 ∨ A.length = 3) ∧ B.length = 2 ∧
        (C.length = 2 ∨ C.length = 3) :=
  ⟨by decide, (C6_codigo_forma_amended "10.01.02").mp (by decide)⟩

/-- C6 counterexample: a two-segment code such as `"10.01"` is rejected,
though the claim says two-segment codes are accepted; and a middle
segment of three digits is rejected, though the claim allows segments of
2-3 digits everywhere.  A three-segment code of the allowed shape is
accepted. -/
theorem C6_codigo_forma_counterexample :
    matchesCodigo "10.01" = false ∧ matchesCodigo "10.001.02" = false ∧
      matchesCodigo "10.01.02" = true :=
  ⟨by decide, by decide, by decide⟩

/-! ### C7: contactor alerts -/

lemma alertas_fold_conteo (ents : List Entidad) :
    ∀ r : ResultadosNLP,
      (ents.foldl (fun a e =>
        if e.etiqueta = "MATERIAL" then
          { a with conteo := incrementa a.conteo ⟨e.texto.data.map Char.toLower⟩ }
        else if e.etiqueta = "NORMATIVA" then
          { a with normativas :=
              agregaUnico a.normativas ⟨e.texto.data.map Char.toUpper⟩ }
        else a) r).alertas = r.alertas := by
  induction ents with
  | nil => intro r; rfl
  | cons e t ih =>
    intro r
    rw [List.foldl_cons, ih]
    by_cases h1 : e.etiqueta = "MATERIAL"
    · simp [h1]
    · by_cases h2 : e.etiqueta = "NORMATIVA" <;> simp [h1, h2]

/-- The per-item alert rule of `_procesar_entidades`: an alert is appended
at the end exactly when the description mentions `contactor`
(case-insensitively) and no entity is labelled `PARAMETRO`. -/
lemma procesarEntidades_alertas (ents : List Entidad) (codigo descripcion : String)
    (r : ResultadosNLP) :
    (procesarEntidades ents codigo descripcion r).alertas =
      r.alertas ++
        (if hayContactor descripcion &&
            !(ents.any (fun e => e.etiqueta = "PARAMETRO"))
         then [⟨codigo, msgContactor⟩] else []) := by
  unfold procesarEntidades
  by_cases hc : (hayContactor descripcion &&
      !(ents.any (fun e => e.etiqueta = "PARAMETRO"))) = true
  · rw [if_pos hc, if_pos hc]
    rw [show ({ ents.foldl _ r with alertas := _ } : ResultadosNLP).alertas =
      (ents.foldl _ r).alertas ++ [⟨codigo, msgContactor⟩] from rfl]
    rw [alertas_fold_conteo ents r]
  · rw [if_neg hc, if_neg hc, alertas_fold_conteo ents r, List.append_nil]

lemma analiza_fold (ps : List (String × String)) :
    ∀ r : ResultadosNLP,
      (ps.foldl (fun r pr =>
        if pr.2 = "" then r
        else procesarEntidades (entidadesRegla pr.2) pr.1 pr.2 r) r).alertas =
      r.alertas ++ ps.filterMap (fun pr =>
        if pr.2 = "" then none
        else if hayContactor pr.2 &&
            !((entidadesRegla pr.2).any (fun e => e.etiqueta = "PARAMETRO"))
          then some ⟨pr.1, msgContactor⟩ else none) := by
  induction ps with
  | nil => intro r; simp
  | cons pr t ih =>
    intro r
    rw [List.foldl_cons]
    by_cases hp : pr.2 = ""
    · rw [if_pos hp, ih r]
      congr 1
      rw [List.filterMap_cons]
      simp [hp]
    · rw [if_neg hp, ih, procesarEntidades_alertas, List.append_assoc]
      congr 1
      rw [List.filterMap_cons]
      by_cases hc : (hayContactor pr.2 &&
          !((entidadesRegla pr.2).any (fun e => e.etiqueta = "PARAMETRO"))) = true
      · simp [hp, hc]
      · simp [hp, hc]

/-- C7 (amended): for every analyzed item, an alert `{code, message}` is
appended exactly when `"contactor"` occurs case-insensitively in the
description and no entity labelled `PARAMETRO` is tagged on it; alerts
preserve the items' encounter order (items with empty description are
skipped).  The `PARAMETRO` tag itself requires the trailing letter: the
ruler regex `\d+x\d+[aA]` accepts `4x25A` but not the letterless `4x25`,
so the letter is required, not optional. -/
theorem C7_contactor_amended :
    (∀ (ents : List Entidad) (codigo descripcion : String) (r : ResultadosNLP),
        (procesarEntidades ents codigo descripcion r).alertas =
          r.alertas ++
            (if hayContactor descripcion &&
                !(ents.any (fun e => e.etiqueta = "PARAMETRO"))
             then [⟨codigo, msgContactor⟩] else [])) ∧
    (∀ ps : List (String × String),
        (analizaPartidas ps).alertas =
          ps.filterMap (fun pr =>
            if pr.2 = "" then none
            else if hayContactor pr.2 &&
                !((entidadesRegla pr.2).any (fun e => e.etiqueta = "PARAMETRO"))
              then some ⟨pr.1, msgContactor⟩ else none)) ∧
    buscaParam "4x25A".data = true ∧ buscaParam "4x25".data = false := by
  refine ⟨procesarEntidades_alertas, fun ps => ?_, by decide, by decide⟩
  unfold analizaPartidas
  rw [analiza_fold ps ⟨[], [], []⟩]
  rfl

/-- C7 counterexample: for `"Instalar contactor 4x25"` the claim's
technical-parameter shape (digits x digits with an optional letter) is
present, so the claim predicts no alert — but the code tags no
`PARAMETRO` (the regex requires the letter) and does raise the alert.
With the letter present, no alert is raised. -/
theorem C7_contactor_counterexample :
    formaParamReclamo "Instalar contactor 4x25".data = true ∧
      (analizaPartidas [("01.01.01", "Instalar contactor 4x25")]).alertas =
        [⟨"01.01.01", msgContactor⟩] ∧
      (analizaPartidas [("01.01.01", "Instalar contactor 4x25A")]).alertas = [] :=
  ⟨by decide, by decide, by decide⟩

/-! ### C1: the consistency cross-check (spec-modelled) -/

lemma revisa_fold (ps : List Partida) :
    ∀ ac : List Partida × List String,
      (ps.foldl (fun ac p =>
        (ac.1 ++ [p], if esInconsistente p then ac.2 ++ [p.codigo] else ac.2))
        ac) =
      (ac.1 ++ ps, ac.2 ++ ps.filterMap (fun p =>
        if esInconsistente p then some p.codigo else none)) := by
  induction ps with
  | nil => intro ac; simp
  | cons p t ih =>
    intro ac
    rw [List.foldl_cons, ih, List.filterMap_cons]
    by_cases hp : esInconsistente p = true
    · simp [hp, List.append_assoc]
    · simp [hp]

/-- C1 (spec-modelled): for every reconciled item a computed total
`round(quantity * unitPrice, 2)` is calculated; an item is flagged exactly
when `abs(total - computedTotal) > 0.1`; the flags are non-fatal warnings
collected in item order, and the items themselves come out of the check
unchanged — none is excluded or modified. -/
theorem C1_consistencia :
    (∀ ps : List Partida, (revisaConsistencia ps).1 = ps) ∧
    (∀ ps : List Partida, (revisaConsistencia ps).2 =
        ps.filterMap (fun p =>
          if esInconsistente p then some p.codigo else none)) ∧
    (∀ p : Partida, esInconsistente p = true ↔
        (1 : ℚ) / 10 <
          |p.importe - (round (p.cantidad * p.precio * 100) : ℚ) / 100|) := by
  refine ⟨fun ps => ?_, fun ps => ?_, fun p => ?_⟩
  · unfold revisaConsistencia
    rw [revisa_fold ps ([], [])]
    simp
  · unfold revisaConsistencia
    rw [revisa_fold ps ([], [])]
    simp
  · unfold esInconsistente totalCalculado
    exact decide_eq_true_iff

/-- Witness for C1: the spec's own example — quantity 10, unit price 100,
stated total 900 — is flagged (difference 100 > 0.1) yet kept in the
output; its warning carries the item's code. -/
theorem C1_consistencia_witness :
    esInconsistente ⟨"01.01.01", "", "", 10, 100, 900⟩ = true ∧
      (revisaConsistencia [⟨"01.01.01", "", "", 10, 100, 900⟩]).1 =
        [⟨"01.01.01", "", "", 10, 100, 900⟩] ∧
      (revisaConsistencia [⟨"01.01.01", "", "", 10, 100, 900⟩]).2 =
        ["01.01.01"] := by
  have h : esInconsistente (⟨"01.01.01", "", "", 10, 100, 900⟩ : Partida) = true := by
    apply (C1_consistencia.2.2 ⟨"01.01.01", "", "", 10, 100, 900⟩).mpr
    show (1 : ℚ) / 10 < |(900 : ℚ) - (round ((10 : ℚ) * 100 * 100) : ℚ) / 100|
    have h1 : round ((10 : ℚ) * 100 * 100) = (100000 : ℤ) := by
      rw [show ((10 : ℚ) * 100 * 100) = ((100000 : ℤ) : ℚ) from by norm_num]
      exact round_intCast 100000
    rw [h1, show ((100000 : ℤ) : ℚ) = 100000 from by norm_num,
      show (900 : ℚ) - (100000 : ℚ) / 100 = -100 from by norm_num, abs_neg,
      show |(100 : ℚ)| = 100 from abs_of_nonneg (by norm_num)]
    norm_num
  refine ⟨h, C1_consistencia.1 _, ?_⟩
  rw [C1_consistencia.2.1]
  simp [h]

end Extractor
